import Mathlib

/-!
Verification development for the LemBots core: the tile-grid world model
(`src/web/src/engine/world.ts`), the movement rules
(`src/web/src/engine/rules.ts`), the tick-based multi-agent simulation engine
(`src/web/src/engine/sim.ts`), the resumable program interpreter
(the VM, `src/web/src/blocks/vm.ts`), the evaluator
(`src/web/src/solver/evaluate.ts`) and the beam-search solver
(`src/web/src/solver/search.ts`).

The TypeScript sources are embedded shallowly: JS numbers that hold integers
become `Int` (or `Nat` for counters that only count up), string-keyed sets and
maps become lists with decidable-equality keys (the key encodings in the source
are injective, so membership agrees), `undefined`/optional values become
`Option`, and the two source loops that are not obviously terminating (the
structural-node loop inside `stepVm`, and the tick loop inside `evaluate`)
take an explicit fuel argument and return `none` when the fuel runs out, i.e.
exactly when the JS loop would still be running.
-/

namespace LemBots

/-! ### World model (src/web/src/engine/world.ts)

Tiles are plain JS numbers produced by `createWorld` from a raw numeric grid
(`cell as TileType` is an unchecked cast), so a tile is embedded as `Int` and
the named tile kinds are the enum's numeric values. -/

abbrev Tile := Int

namespace TileType
def Empty : Tile := 0
def Wall : Tile := 1
def Goal : Tile := 2
def Hazard : Tile := 3
def PressurePlate : Tile := 4
def Door : Tile := 5
def Water : Tile := 6
def Raft : Tile := 7
/-- Modelled from the spec: the `Jetty` tile ("Jetty is a raft dock") is used
by `sim.ts` as `TileType.Jetty` but the enum variant is missing from the
`world.ts` in `src/`; the spec's tile list places it right after `Raft`, so it
gets the next enum value, `8`. -/
def Jetty : Tile := 8
end TileType

structure World where
  grid : List (List Tile)
  width : Int
  height : Int
  deriving Repr, DecidableEq

def createWorld (grid : List (List Tile)) : World :=
  { grid := grid
    width := ((grid.head?.map List.length).getD 0 : Nat)
    height := (grid.length : Nat) }

def isInsideWorld (world : World) (x y : Int) : Bool :=
  x ≥ 0 && y ≥ 0 && x < world.width && y < world.height

/-- `world.grid[y][x] ?? TileType.Empty` for in-range coordinates, `Wall`
outside; a missing row or a short row reads as `undefined`, collapsed to
`Empty` by the `??`. -/
def getTile (world : World) (x y : Int) : Tile :=
  if isInsideWorld world x y then
    ((world.grid.getD y.toNat []).getD x.toNat TileType.Empty)
  else
    TileType.Wall

def isWall (world : World) (x y : Int) : Bool :=
  getTile world x y = TileType.Wall

def isGoal (world : World) (x y : Int) : Bool :=
  getTile world x y = TileType.Goal

def isHazard (world : World) (x y : Int) : Bool :=
  getTile world x y = TileType.Hazard || getTile world x y = TileType.Water

def isWater (world : World) (x y : Int) : Bool :=
  getTile world x y = TileType.Water

def isRaft (world : World) (x y : Int) : Bool :=
  getTile world x y = TileType.Raft

def isPressurePlate (world : World) (x y : Int) : Bool :=
  getTile world x y = TileType.PressurePlate

def isDoor (world : World) (x y : Int) : Bool :=
  getTile world x y = TileType.Door

/-! ### Robot state and actions (src/web/src/engine/robot.ts)

`Direction` is the numeric union `0 | 1 | 2 | 3` (N, E, S, W), embedded as
`Int` since JS arithmetic produces it. The four movement actions are declared
in `robot.ts`; `SIGNAL_ON`/`SIGNAL_OFF` are handled by `sim.ts` and listed in
the spec's action vocabulary ("signal-on, signal-off"), their `robot.ts`
declaration being in a revision missing from `src/`. -/

abbrev Direction := Int

inductive RobotAction where
  | MOVE_FORWARD
  | TURN_LEFT
  | TURN_RIGHT
  | WAIT
  | SIGNAL_ON
  | SIGNAL_OFF
  deriving Repr, DecidableEq

structure RobotState where
  id : String
  x : Int
  y : Int
  direction : Direction
  alive : Bool
  reachedGoal : Bool
  deriving Repr, DecidableEq

def createRobotState (x y : Int) (direction : Direction) (id : String := "robot-1") :
    RobotState :=
  { id := id, x := x, y := y, direction := direction, alive := true, reachedGoal := false }

/-! ### Movement rules (src/web/src/engine/rules.ts) -/

structure Position where
  x : Int
  y : Int
  deriving Repr, DecidableEq

/-- The source passes a robot where a `Position` is expected (structural
typing); the embedding extracts the coordinates explicitly. -/
def robotPos (robot : RobotState) : Position := { x := robot.x, y := robot.y }

def getForwardPosition (position : Position) (direction : Direction) : Position :=
  if direction = 0 then { x := position.x, y := position.y - 1 }
  else if direction = 1 then { x := position.x + 1, y := position.y }
  else if direction = 2 then { x := position.x, y := position.y + 1 }
  else if direction = 3 then { x := position.x - 1, y := position.y }
  else position

/-- JS `(direction + 3) % 4`; the `%` of nonnegative operands is `Int.tmod`. -/
def turnLeft (direction : Direction) : Direction := (direction + 3).tmod 4

def turnRight (direction : Direction) : Direction := (direction + 1).tmod 4

def applyAction (world : World) (robot : RobotState) (action : RobotAction) :
    RobotState :=
  if !robot.alive || robot.reachedGoal then robot
  else
    let step1 :=
      match action with
      | .TURN_LEFT => ({ robot with direction := turnLeft robot.direction }, false)
      | .TURN_RIGHT => ({ robot with direction := turnRight robot.direction }, false)
      | .MOVE_FORWARD =>
          let forward := getForwardPosition (robotPos robot) robot.direction
          if !isWall world forward.x forward.y then
            ({ robot with x := forward.x, y := forward.y },
             isHazard world forward.x forward.y)
          else (robot, false)
      | _ => (robot, false)
    let nextState := if step1.2 then { step1.1 with alive := false } else step1.1
    if isGoal world nextState.x nextState.y then { nextState with reachedGoal := true }
    else nextState

/-! ### Simulation engine (src/web/src/engine/sim.ts) -/

inductive SimulationStatus where
  | running
  | won
  | lost
  deriving Repr, DecidableEq

structure Spawner where
  x : Int
  y : Int
  dir : Direction
  count : Int
  intervalTicks : Int
  deriving Repr, DecidableEq

abbrev Exit := Position

structure RaftState where
  x : Int
  y : Int
  route : List Position
  dockIndex : Nat
  returnIndex : Option Nat
  deriving Repr, DecidableEq

structure SimulationState where
  world : World
  robots : List RobotState
  spawner : Spawner
  exits : List Exit
  status : SimulationStatus
  stepCount : Int
  maxSteps : Int
  requiredSaved : Int
  spawnedCount : Int
  nextSpawnTick : Option Int
  doorUnlocked : Bool
  globalSignal : Bool
  raftStates : List RaftState
  jettyPositions : List Position
  deriving Repr, DecidableEq

structure SimulationConfig where
  world : World
  spawner : Spawner
  exits : List Exit := []
  maxSteps : Int := 200
  requiredSaved : Int := 1

def isExitTile (world : World) (exits : List Exit) (x y : Int) : Bool :=
  if exits.length > 0 then exits.any (fun e => e.x = x && e.y = y)
  else isGoal world x y

def applyExitStatus (world : World) (exits : List Exit) (robot : RobotState) :
    RobotState :=
  if robot.reachedGoal then robot
  else if isExitTile world exits robot.x robot.y then { robot with reachedGoal := true }
  else robot

def createSpawnedRobot (spawner : Spawner) (index : Int) : RobotState :=
  { id := "robot-" ++ toString (index + 1)
    x := spawner.x
    y := spawner.y
    direction := spawner.dir
    alive := true
    reachedGoal := false }

structure SpawnOutcome where
  robots : List RobotState
  spawnedCount : Int
  nextSpawnTick : Option Int

/-- `Array.from({length: count}, (_, i) => ...)` over indices `0..count-1`. -/
def spawnAllRobots (spawner : Spawner) (world : World) (exits : List Exit) :
    List RobotState :=
  (List.range spawner.count.toNat).map fun index =>
    applyExitStatus world exits (createSpawnedRobot spawner (index : Nat))

def initializeRobots (spawner : Spawner) (world : World) (exits : List Exit) :
    SpawnOutcome :=
  if spawner.count ≤ 0 then
    { robots := [], spawnedCount := 0, nextSpawnTick := none }
  else if spawner.intervalTicks ≤ 0 then
    { robots := spawnAllRobots spawner world exits
      spawnedCount := spawner.count
      nextSpawnTick := none }
  else
    { robots := [applyExitStatus world exits (createSpawnedRobot spawner 0)]
      spawnedCount := 1
      nextSpawnTick := some spawner.intervalTicks }

/-- Lexicographic `(y, x)` order used by the position sort's comparator. -/
def posLe (a b : Position) : Bool := a.y < b.y || (a.y = b.y && a.x ≤ b.x)

def sortedInsertPos (p : Position) : List Position → List Position
  | [] => [p]
  | q :: rest => if posLe q p then q :: sortedInsertPos p rest else p :: q :: rest

/-- Stable sort by `(a.y - b.y) || (a.x - b.x)`; equal keys denote equal
positions, so stability is immaterial and insertion sort matches. -/
def sortPositions (positions : List Position) : List Position :=
  positions.foldl (fun acc p => sortedInsertPos p acc) []

/-- Row-major scan `row < height, col < width` collecting cells whose tile
equals `tileType`; a missing cell (`undefined`) never equals a tile number. -/
def listPositionsForTile (world : World) (tileType : Tile) : List Position :=
  (List.range world.height.toNat).flatMap fun row =>
    (List.range world.width.toNat).filterMap fun col =>
      if (world.grid.get? row >>= fun r => r.get? col) = some tileType then
        some { x := (col : Nat), y := (row : Nat) }
      else none

def buildRaftRoute (origin : Position) (jettyPositions : List Position) :
    List Position :=
  origin :: (sortPositions jettyPositions).filter
    (fun jetty => jetty.x ≠ origin.x || jetty.y ≠ origin.y)

def initializeRafts (world : World) (jettyPositions : List Position) :
    List RaftState :=
  (listPositionsForTile world TileType.Raft).map fun raft =>
    { x := raft.x, y := raft.y
      route := buildRaftRoute raft jettyPositions
      dockIndex := 0
      returnIndex := none }

def isBlockingRobot (robot : RobotState) : Bool :=
  robot.alive && !robot.reachedGoal

def isPressurePlatePressed (world : World) (robots : List RobotState) : Bool :=
  robots.any fun robot => isBlockingRobot robot && isPressurePlate world robot.x robot.y

def isDoorOpen (world : World) (robots : List RobotState)
    (doorUnlocked : Bool := false) : Bool :=
  doorUnlocked || isPressurePlatePressed world robots

def countSaved (robots : List RobotState) : Nat :=
  (robots.filter fun robot => robot.reachedGoal).length

def createSimulation (config : SimulationConfig) : SimulationState :=
  let out := initializeRobots config.spawner config.world config.exits
  let savedCount := countSaved out.robots
  let doorUnlocked := isPressurePlatePressed config.world out.robots
  let jettyPositions := listPositionsForTile config.world TileType.Jetty
  let raftStates := initializeRafts config.world jettyPositions
  { world := config.world
    robots := out.robots
    spawner := config.spawner
    exits := config.exits
    status := if (savedCount : Int) ≥ config.requiredSaved then .won else .running
    stepCount := 0
    maxSteps := config.maxSteps
    requiredSaved := config.requiredSaved
    spawnedCount := out.spawnedCount
    nextSpawnTick := out.nextSpawnTick
    doorUnlocked := doorUnlocked
    globalSignal := false
    raftStates := raftStates
    jettyPositions := jettyPositions }

/-! The source keeps occupancy as a `Set<string>` keyed by `"x,y"`; the key is
an injective encoding of the coordinate pair, so a list of positions with
membership up to `=` has the same membership semantics. -/

abbrev OccupiedSet := List Position

def occHas (occ : OccupiedSet) (p : Position) : Bool := occ.any fun q => q = p

def occAdd (occ : OccupiedSet) (p : Position) : OccupiedSet := p :: occ

def occDelete (occ : OccupiedSet) (p : Position) : OccupiedSet :=
  occ.filter fun q => q ≠ p

def buildOccupiedPositions (robots : List RobotState) : OccupiedSet :=
  (robots.filter isBlockingRobot).map robotPos

def isJettyPosition (jettyPositions : List Position) (x y : Int) : Bool :=
  jettyPositions.any fun jetty => jetty.x = x && jetty.y = y

/-- `grid[y][x] = v` for in-range indices; an out-of-range write in the source
either throws (missing row) or is invisible to later in-range reads, and no
claim exercises those, so the embedding leaves the grid unchanged there. -/
def setGridTile (grid : List (List Tile)) (x y : Int) (v : Tile) :
    List (List Tile) :=
  if 0 ≤ y ∧ y.toNat < grid.length then
    grid.set y.toNat ((grid.getD y.toNat []).set x.toNat v)
  else grid

structure RaftMoveAcc where
  grid : List (List Tile)
  robots : List RobotState
  occupied : OccupiedSet
  rafts : List RaftState

def moveRaftsStep (jettyPositions : List Position) (acc : RaftMoveAcc)
    (raft : RaftState) : RaftMoveAcc :=
  let robotsOnRaft := acc.robots.filter fun robot =>
    isBlockingRobot robot && robot.x = raft.x && robot.y = raft.y
  let hasRobot := robotsOnRaft.length > 0
  if raft.route.length < 2 then { acc with rafts := acc.rafts ++ [raft] }
  else if hasRobot then
    let destinationIndex := (raft.dockIndex + 1) % raft.route.length
    let destination := (raft.route.getD destinationIndex { x := 0, y := 0 })
    let hasBlockingAtDestination := occHas acc.occupied destination &&
      !(robotsOnRaft.any fun robot =>
        robot.x = destination.x && robot.y = destination.y)
    if hasBlockingAtDestination then { acc with rafts := acc.rafts ++ [raft] }
    else
      let grid1 := setGridTile acc.grid raft.x raft.y
        (if isJettyPosition jettyPositions raft.x raft.y then TileType.Jetty
         else TileType.Water)
      let grid2 := setGridTile grid1 destination.x destination.y TileType.Raft
      let occ1 := occAdd (occDelete acc.occupied { x := raft.x, y := raft.y })
        destination
      let robots1 := acc.robots.map fun robot =>
        if robot.x = raft.x && robot.y = raft.y then
          { robot with x := destination.x, y := destination.y }
        else robot
      { grid := grid2, robots := robots1, occupied := occ1
        rafts := acc.rafts ++ [{ raft with
          x := destination.x, y := destination.y
          dockIndex := destinationIndex
          returnIndex := some raft.dockIndex }] }
  else
    match raft.returnIndex with
    | some returnIndex =>
        if raft.dockIndex ≠ returnIndex then
          let destination := (raft.route.getD returnIndex { x := 0, y := 0 })
          if occHas acc.occupied destination then
            { acc with rafts := acc.rafts ++ [raft] }
          else
            let grid1 := setGridTile acc.grid raft.x raft.y
              (if isJettyPosition jettyPositions raft.x raft.y then TileType.Jetty
               else TileType.Water)
            let grid2 := setGridTile grid1 destination.x destination.y TileType.Raft
            let occ1 := occAdd
              (occDelete acc.occupied { x := raft.x, y := raft.y }) destination
            { grid := grid2, robots := acc.robots, occupied := occ1
              rafts := acc.rafts ++ [{ raft with
                x := destination.x, y := destination.y
                dockIndex := returnIndex
                returnIndex := none }] }
        else { acc with rafts := acc.rafts ++ [raft] }
    | none => { acc with rafts := acc.rafts ++ [raft] }

structure RaftMoveResult where
  world : World
  robots : List RobotState
  raftStates : List RaftState

def moveRafts (state : SimulationState) (robots : List RobotState) :
    RaftMoveResult :=
  if state.raftStates.length = 0 then
    { world := state.world, robots := robots, raftStates := state.raftStates }
  else
    let init : RaftMoveAcc :=
      { grid := state.world.grid, robots := robots
        occupied := buildOccupiedPositions robots, rafts := [] }
    let acc := state.raftStates.foldl (moveRaftsStep state.jettyPositions) init
    { world := { state.world with grid := acc.grid }
      robots := acc.robots
      raftStates := acc.rafts }

def spawnNextRobot (state : SimulationState) (occupied : OccupiedSet) :
    SpawnOutcome :=
  if state.spawner.count ≤ state.spawnedCount then
    { robots := state.robots, spawnedCount := state.spawnedCount
      nextSpawnTick := state.nextSpawnTick }
  else if state.spawner.intervalTicks ≤ 0 then
    { robots := state.robots, spawnedCount := state.spawnedCount
      nextSpawnTick := state.nextSpawnTick }
  else
    match state.nextSpawnTick with
    | none =>
        { robots := state.robots, spawnedCount := state.spawnedCount
          nextSpawnTick := none }
    | some tick =>
        if state.stepCount < tick then
          { robots := state.robots, spawnedCount := state.spawnedCount
            nextSpawnTick := some tick }
        else if occHas occupied { x := state.spawner.x, y := state.spawner.y } then
          { robots := state.robots, spawnedCount := state.spawnedCount
            nextSpawnTick := some tick }
        else
          { robots := state.robots ++ [createSpawnedRobot state.spawner state.spawnedCount]
            spawnedCount := state.spawnedCount + 1
            nextSpawnTick := some (tick + state.spawner.intervalTicks) }

/-- `spawned.robots.map((robot, index) => ...)` threading the mutable
occupancy set and the `globalSignal` local through the robots in array order.
Returns the processed robots together with the final signal value. -/
def resolveRobotActions (world : World) (exits : List Exit) (doorOpen : Bool)
    (actions : List (Option RobotAction)) :
    List RobotState → Nat → OccupiedSet → Bool → (List RobotState × Bool)
  | [], _, _, signal => ([], signal)
  | robot :: rest, index, occ, signal =>
      match actions.getD index none with
      | none =>
          let nextRobot := applyExitStatus world exits robot
          let out := resolveRobotActions world exits doorOpen actions rest
            (index + 1) occ signal
          (nextRobot :: out.1, out.2)
      | some action =>
          let signal1 :=
            if action = .SIGNAL_ON then true
            else if action = .SIGNAL_OFF then false
            else signal
          let wasBlocking := isBlockingRobot robot
          let occ1 := if wasBlocking then occDelete occ (robotPos robot) else occ
          let isBlocked := fun (x y : Int) =>
            isWall world x y || (isDoor world x y && !doorOpen)
          let nextRobot0 :=
            if action = .MOVE_FORWARD && robot.alive && !robot.reachedGoal then
              let forward := getForwardPosition (robotPos robot) robot.direction
              if !occHas occ1 forward && !isBlocked forward.x forward.y then
                applyAction world robot action
              else robot
            else applyAction world robot action
          let nextRobot := applyExitStatus world exits nextRobot0
          let occ2 :=
            if isBlockingRobot nextRobot then occAdd occ1 (robotPos nextRobot)
            else occ1
          let out := resolveRobotActions world exits doorOpen actions rest
            (index + 1) occ2 signal1
          (nextRobot :: out.1, out.2)

/-- The body of `stepSimulation` past the `status !== 'running'` guard; the
four return sites of the source share one record shape and differ only in the
`status` field (the last one keeping `state.status`, which is `running`
there). -/
def stepSimulationRun (state : SimulationState)
    (actions : List (Option RobotAction)) : SimulationState :=
  let occupied := buildOccupiedPositions state.robots
  let spawned := spawnNextRobot state occupied
  let nextOccupied := buildOccupiedPositions spawned.robots
  let platePressed := isPressurePlatePressed state.world spawned.robots
  let doorOpen := isDoorOpen state.world spawned.robots state.doorUnlocked
  let resolved := resolveRobotActions state.world state.exits doorOpen actions
    spawned.robots 0 nextOccupied state.globalSignal
  let nextRobots := resolved.1
  let globalSignal := resolved.2
  let raftMoveResult := moveRafts state nextRobots
  let raftAdjustedRobots := raftMoveResult.robots.map
    (applyExitStatus raftMoveResult.world state.exits)
  let doorUnlocked := state.doorUnlocked || platePressed ||
    isPressurePlatePressed raftMoveResult.world raftAdjustedRobots
  let stepCount := state.stepCount + 1
  let savedCount := countSaved raftAdjustedRobots
  let hasActiveRobot := raftAdjustedRobots.any fun robot =>
    robot.alive && !robot.reachedGoal
  let hasRemainingSpawns := spawned.spawnedCount < state.spawner.count
  { state with
    robots := raftAdjustedRobots
    spawnedCount := spawned.spawnedCount
    nextSpawnTick := spawned.nextSpawnTick
    stepCount := stepCount
    doorUnlocked := doorUnlocked
    globalSignal := globalSignal
    world := raftMoveResult.world
    raftStates := raftMoveResult.raftStates
    status :=
      if (savedCount : Int) ≥ state.requiredSaved then .won
      else if stepCount ≥ state.maxSteps then .lost
      else if !hasActiveRobot && !hasRemainingSpawns then .lost
      else state.status }

def stepSimulation (state : SimulationState)
    (actions : List (Option RobotAction)) : SimulationState :=
  if state.status ≠ .running then state
  else stepSimulationRun state actions

/-! ### Program trees (src/web/src/blocks/types.ts)

The source wraps step lists in `{ type: 'sequence', steps }`; the embedding
uses the step list directly (the wrapper carries no data). `ConditionType`
covers every primitive kind that appears in the repository's revisions of
`blocks/types.ts` and `solver/types.ts`; the VM's `switch` handles seven of
them and sends every other kind to its `default: return false` arm, exactly
as the source does for a kind it does not know. -/

inductive ConditionType where
  | PATH_AHEAD_CLEAR
  | AHEAD_CLEAR
  | ON_GOAL
  | ON_PRESSURE_PLATE
  | HAZARD_AHEAD
  | RIGHT_CLEAR
  | LEFT_CLEAR
  | GLOBAL_SIGNAL_ON
  | ON_RAFT
  | ON_HAZARD
  deriving Repr, DecidableEq

inductive ConditionNode where
  | primitive (condition : ConditionType)
  | not (operand : ConditionNode)
  | and (left : ConditionNode) (right : ConditionNode)
  | or (left : ConditionNode) (right : ConditionNode)
  deriving Repr, DecidableEq

inductive AstNode where
  | action (act : RobotAction) (blockId : String)
  | repeatN (count : Int) (body : List AstNode) (blockId : String)
  | repeatUntil (condition : ConditionNode) (body : List AstNode) (blockId : String)
  | ifNode (condition : ConditionNode) (thenBranch : List AstNode)
      (elseBranch : Option (List AstNode)) (blockId : String)
  deriving Repr

abbrev ProgramNode := List AstNode

/-! ### Interpreter (src/web/src/blocks/vm.ts, the revision with
`repeat_until` frames cited by the claims) -/

inductive VmStatus where
  | running
  | done
  | step_limit
  deriving Repr, DecidableEq

structure VmContext where
  world : World
  robot : RobotState
  exits : List Exit
  globalSignal : Bool
  doorOpen : Bool

/-- One resumable position inside a control node. The `repeat_until` frame in
the source stores the whole `RepeatUntilNode`; only its condition and body are
ever read (the `blockId` is inert), so the frame stores those two. The top of
the stack (`stack[stack.length - 1]`, pushed and popped at the array's end) is
the list's head here. -/
inductive Frame where
  | sequence (node : ProgramNode) (index : Nat)
  | repeatF (node : ProgramNode) (index : Nat) (remaining : Int)
  | repeatUntilF (condition : ConditionNode) (body : ProgramNode) (index : Nat)
  deriving Repr

structure VmState where
  program : ProgramNode
  stack : List Frame
  status : VmStatus
  steps : Nat
  maxSteps : Int
  currentNode : Option AstNode
  deriving Repr

structure VmStepResult where
  state : VmState
  action : Option RobotAction

def createVm (program : ProgramNode) (maxSteps : Int := 200) : VmState :=
  { program := program
    stack := [.sequence program 0]
    status := .running
    steps := 0
    maxSteps := maxSteps
    currentNode := none }

def evaluatePrimitiveCondition (condition : ConditionType) (ctx : VmContext) :
    Bool :=
  let robot := ctx.robot
  let isOnExit :=
    if ctx.exits.length > 0 then
      ctx.exits.any fun e => e.x = robot.x && e.y = robot.y
    else isGoal ctx.world robot.x robot.y
  match condition with
  | .PATH_AHEAD_CLEAR =>
      let forward := getForwardPosition (robotPos robot) robot.direction
      !isWall ctx.world forward.x forward.y &&
        !isHazard ctx.world forward.x forward.y &&
        !(isDoor ctx.world forward.x forward.y && !ctx.doorOpen)
  | .ON_GOAL => isOnExit
  | .ON_PRESSURE_PLATE => isPressurePlate ctx.world robot.x robot.y
  | .HAZARD_AHEAD =>
      let forward := getForwardPosition (robotPos robot) robot.direction
      isHazard ctx.world forward.x forward.y
  | .RIGHT_CLEAR =>
      let right := getForwardPosition (robotPos robot) (turnRight robot.direction)
      !isWall ctx.world right.x right.y &&
        !isHazard ctx.world right.x right.y &&
        !(isDoor ctx.world right.x right.y && !ctx.doorOpen)
  | .LEFT_CLEAR =>
      let left := getForwardPosition (robotPos robot) (turnLeft robot.direction)
      !isWall ctx.world left.x left.y &&
        !isHazard ctx.world left.x left.y &&
        !(isDoor ctx.world left.x left.y && !ctx.doorOpen)
  | .GLOBAL_SIGNAL_ON => ctx.globalSignal
  | _ => false

def evaluateCondition (ctx : VmContext) : ConditionNode → Bool
  | .not operand => !evaluateCondition ctx operand
  | .and left right => evaluateCondition ctx left && evaluateCondition ctx right
  | .or left right => evaluateCondition ctx left || evaluateCondition ctx right
  | .primitive condition => evaluatePrimitiveCondition condition ctx

def frameBody : Frame → ProgramNode
  | .sequence node _ => node
  | .repeatF node _ _ => node
  | .repeatUntilF _ body _ => body

def frameIndex : Frame → Nat
  | .sequence _ index => index
  | .repeatF _ index _ => index
  | .repeatUntilF _ _ index => index

def frameWithIndex : Frame → Nat → Frame
  | .sequence node _, i => .sequence node i
  | .repeatF node _ remaining, i => .repeatF node i remaining
  | .repeatUntilF condition body _, i => .repeatUntilF condition body i

/-- Outcome of one pass through the `while (stack.length > 0)` body of
`stepVm`: loop again with a new stack (every `continue` and the implicit
fall-through), yield an action node (`return`), or leave the loop because the
stack is empty. -/
inductive VmLoopOutcome where
  | continueLoop (stack : List Frame)
  | yieldAction (stack : List Frame) (node : AstNode) (act : RobotAction)
  | finished

def vmLoopStep (ctx : VmContext) : List Frame → VmLoopOutcome
  | [] => .finished
  | frame :: rest =>
      let steps := frameBody frame
      let pre : Option VmLoopOutcome :=
        match frame with
        | .repeatUntilF condition body index =>
            if index = 0 && evaluateCondition ctx condition then
              some (.continueLoop rest)
            else if index ≥ body.length then
              some (if evaluateCondition ctx condition then .continueLoop rest
                    else .continueLoop (Frame.repeatUntilF condition body 0 :: rest))
            else none
        | .repeatF node index remaining =>
            if remaining ≤ 0 then some (.continueLoop rest)
            else if index ≥ node.length then
              some (if remaining - 1 ≤ 0 then .continueLoop rest
                    else .continueLoop (Frame.repeatF node 0 (remaining - 1) :: rest))
            else none
        | .sequence _ _ => none
      match pre with
      | some outcome => outcome
      | none =>
          if frameIndex frame ≥ steps.length then .continueLoop rest
          else
            match steps.get? (frameIndex frame) with
            | none => .continueLoop rest
            | some node =>
                let bumped := frameWithIndex frame (frameIndex frame + 1)
                match node with
                | .action act _ => .yieldAction (bumped :: rest) node act
                | .repeatN count body _ =>
                    if count > 0 then
                      .continueLoop (Frame.repeatF body 0 count :: bumped :: rest)
                    else .continueLoop (bumped :: rest)
                | .repeatUntil condition body _ =>
                    .continueLoop (Frame.repeatUntilF condition body 0 :: bumped :: rest)
                | .ifNode condition thenBranch elseBranch _ =>
                    let branch :=
                      if evaluateCondition ctx condition then some thenBranch
                      else elseBranch
                    match branch with
                    | some b =>
                        if b.length > 0 then
                          .continueLoop (Frame.sequence b 0 :: bumped :: rest)
                        else .continueLoop (bumped :: rest)
                    | none => .continueLoop (bumped :: rest)

/-- Iterate `vmLoopStep`; `fuel` bounds the number of `continue`s, and `none`
means the source loop would still be running after that many passes. -/
def vmRunLoop (ctx : VmContext) : Nat → List Frame →
    Option (Option (List Frame × AstNode × RobotAction))
  | fuel, stack =>
      match vmLoopStep ctx stack with
      | .finished => some none
      | .yieldAction stack' node act => some (some (stack', node, act))
      | .continueLoop stack' =>
          match fuel with
          | 0 => none
          | fuel' + 1 => vmRunLoop ctx fuel' stack'

/-- `stepVm(state, context)`; the source clones the frame stack and mutates
the clone, which is the identity on values. `loopFuel` bounds the structural
loop; `none` reports that the source would not have returned. -/
def stepVm (loopFuel : Nat) (state : VmState) (ctx : VmContext) :
    Option VmStepResult :=
  if state.status ≠ .running then some { state := state, action := none }
  else if (state.steps : Int) ≥ state.maxSteps then
    some { state := { state with status := .step_limit, currentNode := none }
           action := none }
  else
    match vmRunLoop ctx loopFuel state.stack with
    | none => none
    | some (some (stack', node, act)) =>
        some { state := { state with
                 stack := stack'
                 steps := state.steps + 1
                 currentNode := some node }
               action := some act }
    | some none =>
        some { state := { state with
                 stack := []
                 status := .done
                 currentNode := none }
               action := none }

/-! ### Solver program trees and translation (src/web/src/solver/types.ts,
src/web/src/solver/translate.ts)

`SolverConditionNode` has the same shape as `ConditionNode` and
`toConditionNode` copies it kind-for-kind, so both sides use the unified
`ConditionNode` here and `toConditionNode` is the structural copy. -/

inductive SolverAstNode where
  | action (act : RobotAction)
  | ifNode (condition : ConditionNode) (thenBranch : List SolverAstNode)
      (elseBranch : Option (List SolverAstNode))
  | repeatN (count : Int) (body : List SolverAstNode)
  | repeatUntil (condition : ConditionNode) (body : List SolverAstNode)
  deriving Repr

abbrev SolverProgram := List SolverAstNode

def toConditionNode : ConditionNode → ConditionNode
  | .not operand => .not (toConditionNode operand)
  | .and left right => .and (toConditionNode left) (toConditionNode right)
  | .or left right => .or (toConditionNode left) (toConditionNode right)
  | .primitive condition => .primitive condition

/-- The block-id factory: `nextId = () => ` the string `solver-` followed by
the pre-incremented counter. -/
def nextBlockId (counter : Nat) : String × Nat :=
  ("solver-" ++ toString (counter + 1), counter + 1)

mutual

def toAstNode : SolverAstNode → Nat → (AstNode × Nat)
  | .action act, counter =>
      let id := nextBlockId counter
      (.action act id.1, id.2)
  | .ifNode condition thenBranch elseBranch, counter =>
      let thenOut := toProgramNodeAux thenBranch counter
      let elseOut :=
        match elseBranch with
        | some b =>
            let out := toProgramNodeAux b thenOut.2
            (some out.1, out.2)
        | none => (none, thenOut.2)
      let id := nextBlockId elseOut.2
      (.ifNode (toConditionNode condition) thenOut.1 elseOut.1 id.1, id.2)
  | .repeatN count body, counter =>
      let bodyOut := toProgramNodeAux body counter
      let id := nextBlockId bodyOut.2
      (.repeatN count bodyOut.1 id.1, id.2)
  | .repeatUntil condition body, counter =>
      let bodyOut := toProgramNodeAux body counter
      let id := nextBlockId bodyOut.2
      (.repeatUntil (toConditionNode condition) bodyOut.1 id.1, id.2)

def toProgramNodeAux : List SolverAstNode → Nat → (List AstNode × Nat)
  | [], counter => ([], counter)
  | step :: rest, counter =>
      let out := toAstNode step counter
      let restOut := toProgramNodeAux rest out.2
      (out.1 :: restOut.1, restOut.2)

end

def toProgramNode (program : SolverProgram) : ProgramNode :=
  (toProgramNodeAux program 0).1

/-! ### Evaluator (src/web/src/solver/evaluate.ts, given as part of the
repository dump) -/

inductive LevelDirSpec where
  | num (value : Int)
  | N
  | E
  | S
  | W
  deriving Repr, DecidableEq

/-- JS `((direction % 4) + 4) % 4` for numbers (`%` is `Int.tmod`), compass
letters mapped N,E,S,W to 0..3. -/
def parseDirection : LevelDirSpec → Direction
  | .num d => ((d.tmod 4) + 4).tmod 4
  | .N => 0
  | .E => 1
  | .S => 2
  | .W => 3

/-- The spawner record of a level definition. The optional `starts` list is
ignored by the `createSimulation` in `src/` (only `x`, `y`, `dir`, `count`,
`intervalTicks` are read), so it is not modelled. -/
structure LevelSpawner where
  x : Int
  y : Int
  dir : LevelDirSpec
  count : Int
  intervalTicks : Int
  deriving Repr, DecidableEq

structure LevelStart where
  x : Int
  y : Int
  dir : Int
  deriving Repr, DecidableEq

structure SolverLevelDefinition where
  grid : List (List Tile)
  spawner : Option LevelSpawner := none
  exits : Option (List Exit) := none
  requiredSaved : Option Int := none
  maxTicks : Option Int := none
  start : Option LevelStart := none
  goal : Option Position := none
  deriving Repr, DecidableEq

structure EvalOptions where
  maxTicks : Option Int := none
  maxVmSteps : Option Int := none
  sampleEvery : Option Int := none
  deriving Repr, DecidableEq

inductive RobotLifeStatus where
  | alive
  | dead
  | saved
  deriving Repr, DecidableEq

structure TraceLiteFrame where
  id : String
  x : Int
  y : Int
  dir : Direction
  status : RobotLifeStatus
  deriving Repr, DecidableEq

structure TraceLite where
  sampleEvery : Int
  frames : List (List TraceLiteFrame)
  deriving Repr, DecidableEq

structure EventSummary where
  doorOpened : Bool
  pressurePlatePressed : Bool
  raftUsed : Bool
  waterTouched : Bool
  anySaved : Bool
  deriving Repr, DecidableEq

/-- The evaluator's running score is a JS number that starts at `-Infinity`;
it is embedded as `Option Nat` with `none` for `-Infinity` (every computed
score is a nonnegative integer). -/
structure EvalResult where
  solved : Bool
  score : Option Nat
  ticks : Int
  finalRobots : List RobotState
  bestRobots : List RobotState
  events : EventSummary
  traceLite : TraceLite
  deriving Repr, DecidableEq

def createSimulationForLevel (level : SolverLevelDefinition)
    (options : EvalOptions) : SimulationState :=
  let world := createWorld level.grid
  let fallbackStart := level.start.getD { x := 1, y := 1, dir := 1 }
  let spawner : Spawner :=
    match level.spawner with
    | some raw =>
        { x := raw.x, y := raw.y, dir := parseDirection raw.dir
          count := raw.count, intervalTicks := raw.intervalTicks }
    | none =>
        { x := fallbackStart.x, y := fallbackStart.y
          dir := parseDirection (.num fallbackStart.dir)
          count := 1, intervalTicks := 0 }
  let exits := level.exits.getD (match level.goal with
    | some goal => [goal]
    | none => [])
  createSimulation
    { world := world
      spawner := spawner
      exits := exits
      maxSteps := level.maxTicks.getD (options.maxTicks.getD 200)
      requiredSaved := level.requiredSaved.getD 1 }

/-- `robots.map((robot) => ({ ...robot }))`: a value-level identity copy. -/
def snapshotRobots (robots : List RobotState) : List RobotState :=
  robots.map fun robot => robot

def getRobotStatus (robot : RobotState) : RobotLifeStatus :=
  if robot.reachedGoal then .saved
  else if !robot.alive then .dead
  else .alive

def snapshotFrame (robots : List RobotState) : List TraceLiteFrame :=
  robots.map fun robot =>
    { id := robot.id, x := robot.x, y := robot.y, dir := robot.direction
      status := getRobotStatus robot }

def updateEvents (events : EventSummary) (robots : List RobotState)
    (levelWorld : World) (doorOpen : Bool) (savedCount : Nat) : EventSummary :=
  let pressurePlatePressed := robots.any fun robot =>
    robot.alive && isPressurePlate levelWorld robot.x robot.y
  let raftUsed := robots.any fun robot =>
    robot.alive && isRaft levelWorld robot.x robot.y
  let waterTouched := robots.any fun robot =>
    robot.alive && isWater levelWorld robot.x robot.y
  { doorOpened := events.doorOpened || doorOpen
    pressurePlatePressed := events.pressurePlatePressed || pressurePlatePressed
    raftUsed := events.raftUsed || raftUsed
    waterTouched := events.waterTouched || waterTouched
    anySaved := events.anySaved || savedCount > 0 }

def manhattanDistance (e : Exit) (robot : RobotState) : Nat :=
  (e.x - robot.x).natAbs + (e.y - robot.y).natAbs

/-- The `minDistance` fold of `computeScore`: `Infinity` is `none`, and only
robots with `alive` contribute. -/
def minDistanceToExit (robots : List RobotState) (exits : List Exit) :
    Option Nat :=
  robots.foldl
    (fun acc robot =>
      if !robot.alive then acc
      else exits.foldl
        (fun acc2 e =>
          match acc2 with
          | none => some (manhattanDistance e robot)
          | some m => some (min m (manhattanDistance e robot)))
        acc)
    none

/-- `Math.max(0, 100 - minDistance)` is truncated subtraction on `Nat`. -/
def computeScore (robots : List RobotState) (exits : List Exit)
    (savedCount : Nat) (events : EventSummary) (status : SimulationStatus) :
    Nat :=
  let score := savedCount * 1000 +
    (if events.doorOpened then 50 else 0) +
    (if events.pressurePlatePressed then 25 else 0) +
    (if events.raftUsed then 50 else 0) +
    (if events.waterTouched then 10 else 0) +
    (if status = .won then 5000 else 0)
  if exits.length > 0 then
    match minDistanceToExit robots exits with
    | some d => score + (100 - d)
    | none => score
  else score

/-- Modelled from the spec: `evaluate` reads `simulation.savedCount`, a field
kept by a `sim.ts` revision that is missing from `src/`; the spec counts a
robot as saved exactly when it has `reachedGoal` ("`won` if saved-count ≥
`requiredSaved`"), which is also how every `sim.ts` in `src/` computes its
local `savedCount`. -/
def savedCountOf (sim : SimulationState) : Nat := countSaved sim.robots

/-- JS `>` on the score domain with `-Infinity` as `none`. -/
def scoreGtB : Option Nat → Option Nat → Bool
  | some x, some y => x > y
  | some _, none => true
  | none, _ => false

def lookupVm (vms : List (String × VmState)) (id : String) : Option VmState :=
  match vms with
  | [] => none
  | (k, v) :: rest => if k = id then some v else lookupVm rest id

def setVm (vms : List (String × VmState)) (id : String) (v : VmState) :
    List (String × VmState) :=
  match vms with
  | [] => [(id, v)]
  | (k, v') :: rest =>
      if k = id then (k, v) :: rest else (k, v') :: setVm rest id v

/-- The per-tick `simulation.robots.forEach` of `evaluate` that collects one
action per robot, creating a VM on first sight and recording step-limit hits.
The source builds the VM context without a `globalSignal` property, which the
VM reads as a falsy `undefined`, so the context carries `false`; the
`occupiedPositions` it also passes is not read by this VM revision. -/
def collectActions (vmFuel : Nat) (compiled : ProgramNode)
    (options : EvalOptions) (sim : SimulationState) (doorOpen : Bool) :
    List RobotState → List (String × VmState) → List (Option RobotAction) →
    Bool → Option (List (String × VmState) × List (Option RobotAction) × Bool)
  | [], vms, actsRev, saw => some (vms, actsRev.reverse, saw)
  | robot :: rest, vms, actsRev, saw =>
      let found :=
        match lookupVm vms robot.id with
        | some v => (vms, v)
        | none =>
            let v := createVm compiled (options.maxVmSteps.getD sim.maxSteps)
            (setVm vms robot.id v, v)
      if !robot.alive || robot.reachedGoal || found.2.status ≠ .running then
        collectActions vmFuel compiled options sim doorOpen rest found.1
          (none :: actsRev) saw
      else
        match stepVm vmFuel found.2
          { world := sim.world, robot := robot, exits := sim.exits
            globalSignal := false, doorOpen := doorOpen } with
        | none => none
        | some res =>
            collectActions vmFuel compiled options sim doorOpen rest
              (setVm found.1 robot.id res.state) (res.action :: actsRev)
              (saw || res.state.status = .step_limit)

structure EvalAcc where
  bestScore : Option Nat
  bestRobots : List RobotState

def evalFinish (sampleEvery : Int) (sim : SimulationState)
    (events : EventSummary) (acc : EvalAcc) (tickIndex : Nat)
    (frames : List (List TraceLiteFrame)) : EvalResult :=
  let frames' :=
    if (tickIndex : Int).tmod sampleEvery ≠ 0 then
      frames ++ [snapshotFrame sim.robots]
    else frames
  { solved := sim.status = .won
    score := acc.bestScore
    ticks := sim.stepCount
    finalRobots := snapshotRobots sim.robots
    bestRobots := acc.bestRobots
    events := events
    traceLite := { sampleEvery := sampleEvery, frames := frames' } }

/-- The `while (simulation.status === 'running')` loop of `evaluate`. `fuel`
bounds the number of ticks; `none` means the source loop would still be
running (it has runs that never leave `running`, e.g. when every VM is `done`
while interval spawns remain pending). -/
def evalLoop (vmFuel : Nat) (compiled : ProgramNode) (options : EvalOptions)
    (sampleEvery : Int) :
    Nat → SimulationState → List (String × VmState) → EventSummary →
    EvalAcc → Nat → List (List TraceLiteFrame) → Option EvalResult
  | fuel, sim, vms, events, acc, tickIndex, frames =>
      if sim.status ≠ .running then
        some (evalFinish sampleEvery sim events acc tickIndex frames)
      else
        match fuel with
        | 0 => none
        | fuel' + 1 =>
            let doorOpen := isDoorOpen sim.world sim.robots sim.doorUnlocked
            match collectActions vmFuel compiled options sim doorOpen
              sim.robots vms [] false with
            | none => none
            | some (vms', actions, sawStepLimit) =>
                let hasRemainingSpawns := sim.spawnedCount < sim.spawner.count
                let sim1 :=
                  if actions.any (fun a => a.isSome) ||
                      (sim.robots.length = 0 && hasRemainingSpawns) then
                    stepSimulation sim actions
                  else if !hasRemainingSpawns then { sim with status := .lost }
                  else sim
                let sim2 :=
                  if sawStepLimit && sim1.status = .running then
                    { sim1 with status := .lost }
                  else sim1
                let doorOpen2 := isDoorOpen sim2.world sim2.robots sim2.doorUnlocked
                let events' := updateEvents events sim2.robots sim2.world
                  doorOpen2 (savedCountOf sim2)
                let score := computeScore sim2.robots sim2.exits
                  (savedCountOf sim2) events' sim2.status
                let acc' :=
                  if scoreGtB (some score) acc.bestScore then
                    { bestScore := some score
                      bestRobots := snapshotRobots sim2.robots }
                  else acc
                let tickIndex' := tickIndex + 1
                let frames' :=
                  if (tickIndex' : Int).tmod sampleEvery = 0 then
                    frames ++ [snapshotFrame sim2.robots]
                  else frames
                evalLoop vmFuel compiled options sampleEvery fuel' sim2 vms'
                  events' acc' tickIndex' frames'

def evaluate (vmFuel tickFuel : Nat) (program : SolverProgram)
    (level : SolverLevelDefinition) (options : EvalOptions := {}) :
    Option EvalResult :=
  let compiledProgram := toProgramNode program
  let simulation := createSimulationForLevel level options
  let sampleEvery := options.sampleEvery.getD 5
  evalLoop vmFuel compiledProgram options sampleEvery tickFuel simulation []
    { doorOpened := false, pressurePlatePressed := false, raftUsed := false
      waterTouched := false, anySaved := false }
    { bestScore := none, bestRobots := snapshotRobots simulation.robots }
    0 [snapshotFrame simulation.robots]

/-! ### Beam-search solver (src/web/src/solver/search.ts, the beam revision
cited by the claims)

`Date.now() - start < maxTimeMs` is the only impure input; since elapsed time
only decreases the remaining budget, every real execution is reproduced by
some oracle `timeOk : Nat → Bool` consulted once per evaluation of that
comparison (indexed by how many such comparisons have happened). The progress
callback only observes state, so it is not modelled beyond the
`lastProgressAttempt` bookkeeping. -/

structure SolverSearchOptions where
  maxAttempts : Option Int := none
  maxTimeMs : Option Int := none
  maxDepth : Option Int := none
  beamWidth : Option Int := none
  progressEvery : Option Int := none
  seed : Option Int := none
  actions : List RobotAction
  conditions : Option (List ConditionType) := none

/-- `Math.floor` is the identity on the integers this model admits, and
`Number.isFinite` always holds for them. -/
def clampPositive (value : Option Int) (fallback : Int) : Int :=
  match value with
  | none => fallback
  | some v => if v ≤ 0 then fallback else v

def cloneProgram (program : SolverProgram) : SolverProgram :=
  program.map fun step => step

def appendAction (program : SolverProgram) (act : RobotAction) : SolverProgram :=
  program ++ [.action act]

def trimProgram (program : SolverProgram) : SolverProgram :=
  if program.length = 0 then program else program.dropLast

def expandProgram (program : SolverProgram) (options : SolverSearchOptions) :
    List SolverProgram :=
  if options.actions.length = 0 then [cloneProgram program]
  else options.actions.map (appendAction program)

structure SearchState where
  bestProgram : Option SolverProgram
  bestEval : Option EvalResult
  attempts : Int
  /-- `startedAt` records `Date.now()` at entry; wall-clock values live
  outside the model, so the embedding pins it to `0`. -/
  startedAt : Int

structure SearchResult where
  solved : Bool
  state : SearchState

/-- The mutable locals of `runSolverSearch`, plus the count of time-oracle
consultations. -/
structure SearchCtx where
  attempts : Int
  bestProgram : Option SolverProgram
  bestEval : Option EvalResult
  solved : Bool
  lastProgressAttempt : Int
  timeChecks : Nat

/-- Everything `runSolverSearch` closes over. -/
structure SearchEnv where
  vmFuel : Nat
  tickFuel : Nat
  level : SolverLevelDefinition
  evalOptions : EvalOptions
  options : SolverSearchOptions
  maxAttempts : Int
  progressEvery : Int
  beamWidth : Int
  maxDepth : Int
  timeOk : Nat → Bool

/-- `shouldContinue()`: `attempts < maxAttempts && Date.now() - start <
maxTimeMs`, the second conjunct short-circuited away when the first fails. -/
def shouldContinue (env : SearchEnv) (ctx : SearchCtx) : Bool × SearchCtx :=
  if ctx.attempts < env.maxAttempts then
    (env.timeOk ctx.timeChecks, { ctx with timeChecks := ctx.timeChecks + 1 })
  else (false, ctx)

def evaluateCandidate (env : SearchEnv) (program : SolverProgram)
    (ctx : SearchCtx) : Option (SearchCtx × Option EvalResult) :=
  let sc := shouldContinue env ctx
  if !sc.1 then some (sc.2, none)
  else
    let ctx1 := { sc.2 with attempts := sc.2.attempts + 1 }
    match evaluate env.vmFuel env.tickFuel program env.level env.evalOptions with
    | none => none
    | some evaluation =>
        let ctx2 :=
          match ctx1.bestEval with
          | none =>
              { ctx1 with bestEval := some evaluation
                          bestProgram := some (cloneProgram program) }
          | some bestEval =>
              if scoreGtB evaluation.score bestEval.score then
                { ctx1 with bestEval := some evaluation
                            bestProgram := some (cloneProgram program) }
              else ctx1
        let ctx3 := if evaluation.solved then { ctx2 with solved := true } else ctx2
        let ctx4 :=
          if ctx3.attempts - ctx3.lastProgressAttempt ≥ env.progressEvery then
            { ctx3 with lastProgressAttempt := ctx3.attempts }
          else ctx3
        some (ctx4, some evaluation)

/-- Stable insertion for the descending sort `(a, b) => b.eval.score -
a.eval.score`: an element passes those with score not below its own, so ties
keep their original order, matching the stable `Array.prototype.sort`. -/
def insertByScoreDesc (x : SolverProgram × EvalResult) :
    List (SolverProgram × EvalResult) → List (SolverProgram × EvalResult)
  | [] => [x]
  | y :: rest =>
      if scoreGtB x.2.score y.2.score then x :: y :: rest
      else y :: insertByScoreDesc x rest

def sortByScoreDesc (l : List (SolverProgram × EvalResult)) :
    List (SolverProgram × EvalResult) :=
  l.foldl (fun acc x => insertByScoreDesc x acc) []

/-- The `for (const expansion of expansions)` loop body. -/
def searchExpansions (env : SearchEnv) :
    List SolverProgram → SearchCtx → List (SolverProgram × EvalResult) →
    Option (SearchCtx × List (SolverProgram × EvalResult))
  | [], ctx, layer => some (ctx, layer)
  | expansion :: rest, ctx, layer =>
      if (expansion.length : Int) > env.maxDepth then some (ctx, layer)
      else
        let sc := shouldContinue env ctx
        if !sc.1 then some (sc.2, layer)
        else
          match evaluateCandidate env expansion sc.2 with
          | none => none
          | some (ctx', none) => some (ctx', layer)
          | some (ctx', some evaluation) =>
              let layer' := layer ++ [(expansion, evaluation)]
              if ctx'.solved then some (ctx', layer')
              else searchExpansions env rest ctx' layer'

/-- The `for (const candidate of candidates)` loop body. -/
def searchCandidates (env : SearchEnv) :
    List (SolverProgram × EvalResult) → SearchCtx →
    List (SolverProgram × EvalResult) →
    Option (SearchCtx × List (SolverProgram × EvalResult))
  | [], ctx, layer => some (ctx, layer)
  | candidate :: rest, ctx, layer =>
      let sc := shouldContinue env ctx
      if !sc.1 || sc.2.solved then some (sc.2, layer)
      else
        match searchExpansions env (expandProgram candidate.1 env.options)
          sc.2 layer with
        | none => none
        | some (ctx', layer') => searchCandidates env rest ctx' layer'

/-- The depth loop; `remaining` is `maxDepth - depth`, so the `depth <
maxDepth` guard is `remaining > 0` and consumes no time check when false. -/
def searchDepths (env : SearchEnv) :
    Nat → SearchCtx → List (SolverProgram × EvalResult) → Option SearchCtx
  | 0, ctx, _ => some ctx
  | remaining + 1, ctx, frontier =>
      let sc := shouldContinue env ctx
      if !sc.1 then some sc.2
      else if sc.2.solved then some sc.2
      else
        let candidates := (sortByScoreDesc frontier).take env.beamWidth.toNat
        match searchCandidates env candidates sc.2 [] with
        | none => none
        | some (ctx', nextLayer) =>
            if nextLayer.length = 0 then some ctx'
            else searchDepths env remaining ctx'
              ((sortByScoreDesc nextLayer).take env.beamWidth.toNat)

def runSolverSearch (vmFuel tickFuel : Nat) (timeOk : Nat → Bool)
    (level : SolverLevelDefinition) (options : SolverSearchOptions)
    (evalOptions : EvalOptions := {}) : Option SearchResult :=
  let env : SearchEnv :=
    { vmFuel := vmFuel, tickFuel := tickFuel, level := level
      evalOptions := evalOptions, options := options
      maxAttempts := clampPositive options.maxAttempts 200
      progressEvery := clampPositive options.progressEvery 25
      beamWidth := clampPositive options.beamWidth 20
      maxDepth := clampPositive options.maxDepth 25
      timeOk := timeOk }
  let ctx0 : SearchCtx :=
    { attempts := 0, bestProgram := none, bestEval := none, solved := false
      lastProgressAttempt := 0, timeChecks := 0 }
  let initialProgram : SolverProgram := []
  match evaluateCandidate env initialProgram ctx0 with
  | none => none
  | some (ctx1, initialEval) =>
      let frontier :=
        match initialEval with
        | some ev => [(initialProgram, ev)]
        | none => []
      match searchDepths env env.maxDepth.toNat ctx1 frontier with
      | none => none
      | some ctx2 =>
          some { solved := ctx2.solved
                 state := { bestProgram := ctx2.bestProgram
                            bestEval := ctx2.bestEval
                            attempts := ctx2.attempts
                            startedAt := 0 } }

def searchEnvOf (vmFuel tickFuel : Nat) (timeOk : Nat → Bool)
    (level : SolverLevelDefinition) (options : SolverSearchOptions)
    (evalOptions : EvalOptions) : SearchEnv :=
  { vmFuel := vmFuel, tickFuel := tickFuel, level := level
    evalOptions := evalOptions, options := options
    maxAttempts := clampPositive options.maxAttempts 200
    progressEvery := clampPositive options.progressEvery 25
    beamWidth := clampPositive options.beamWidth 20
    maxDepth := clampPositive options.maxDepth 25
    timeOk := timeOk }

def searchCtx0 : SearchCtx :=
  { attempts := 0, bestProgram := none, bestEval := none, solved := false
    lastProgressAttempt := 0, timeChecks := 0 }

def SearchInv (env : SearchEnv) (ctx : SearchCtx) : Prop :=
  (∀ e, ctx.bestEval = some e → ∃ p, ctx.bestProgram = some p ∧
    evaluate env.vmFuel env.tickFuel p env.level env.evalOptions = some e) ∧
  (ctx.solved = true → ∃ e, ctx.bestEval = some e ∧ e.solved = true) ∧
  (ctx.solved = false → ∀ e, ctx.bestEval = some e → e.solved = false)

/-! ### Specification-side definitions and drivers

These are not translations of source functions: they articulate the claims
(score formulas written from the spec's words, per-tick score sequences, call
drivers for the resumable VM, boundedness invariants) and are compared with
the source-translated functions by the theorems below. -/

/-- Drive `n` consecutive `stepVm` calls, keeping only the final VM state. -/
def driveVm (loopFuel : Nat) (ctx : VmContext) : Nat → VmState → Option VmState
  | 0, st => some st
  | n + 1, st =>
      match stepVm loopFuel st ctx with
      | none => none
      | some res => driveVm loopFuel ctx n res.state

/-- Drive `stepVm` calls until one yields no action (the VM is then `done` or
`step_limit`), collecting the emitted actions in order; `none` if the call
budget or a structural loop runs out first. -/
def runTraceVm (loopFuel : Nat) (ctx : VmContext) :
    Nat → VmState → Option (List RobotAction × VmState)
  | 0, _ => none
  | calls + 1, st =>
      match stepVm loopFuel st ctx with
      | none => none
      | some res =>
          match res.action with
          | some act =>
              (runTraceVm loopFuel ctx calls res.state).map fun out =>
                (act :: out.1, out.2)
          | none => some ([], res.state)

/-- The VM state mid-run of the program `[RepeatUntil cond body]`: the
repeat-until frame sits at cursor `i` above the exhausted program-sequence
frame, `k` actions having been executed. -/
def ruLoopState (cond : ConditionNode) (body : ProgramNode) (bid : String)
    (m : Int) (k i : Nat) (cn : Option AstNode) : VmState :=
  { program := [.repeatUntil cond body bid]
    stack := [.repeatUntilF cond body i, .sequence [.repeatUntil cond body bid] 1]
    status := .running
    steps := k
    maxSteps := m
    currentNode := cn }

/-- The VM state mid-run of the program `[Repeat count body]`: the repeat
frame has cursor `i` and `rem` rounds left (the current one included), `k`
actions having been executed. -/
def repLoopState (count : Int) (body : ProgramNode) (bid : String) (m : Int)
    (k : Nat) (rem : Int) (i : Nat) (cn : Option AstNode) : VmState :=
  { program := [.repeatN count body bid]
    stack := [.repeatF body i rem, .sequence [.repeatN count body bid] 1]
    status := .running
    steps := k
    maxSteps := m
    currentNode := cn }

/-- Whether the body of a repeat node is a straight-line run of action
leaves. -/
def actionBody (acts : List (RobotAction × String)) : ProgramNode :=
  acts.map fun p => .action p.1 p.2

/-- Flag monotonicity between an old and a new robot record: death and
reaching the goal are one-way. -/
def monoFlags (r r' : RobotState) : Prop :=
  (r.alive = false → r'.alive = false) ∧
  (r.reachedGoal = true → r'.reachedGoal = true)

/-- A raft whose route stops lie inside the bounds of `w` and whose route
indices are in range (the source indexes `route` with them unchecked). -/
def raftInv (w : World) (rf : RaftState) : Prop :=
  (∀ p ∈ rf.route, isInsideWorld w p.x p.y = true) ∧
  rf.dockIndex < rf.route.length ∧
  (∀ ri, rf.returnIndex = some ri → ri < rf.route.length)

/-- All robot positions and the spawn cell lie inside the world's bounds, and
every raft satisfies `raftInv`. -/
def InBoundsState (s : SimulationState) : Prop :=
  (∀ r ∈ s.robots, isInsideWorld s.world r.x r.y = true) ∧
  (isInsideWorld s.world s.spawner.x s.spawner.y = true) ∧
  (∀ raft ∈ s.raftStates, raftInv s.world raft)

/-- The C5 claim's per-tick score formula taken at its word: the proximity
bonus uses the minimum Manhattan distance from any robot (dead or alive) to
the nearest exit. -/
def claimScorePerTick (robots : List RobotState) (exits : List Exit)
    (savedCount : Nat) (events : EventSummary) (status : SimulationStatus) :
    Nat :=
  savedCount * 1000 +
    (if events.doorOpened then 50 else 0) +
    (if events.pressurePlatePressed then 25 else 0) +
    (if events.raftUsed then 50 else 0) +
    (if events.waterTouched then 10 else 0) +
    (if status = .won then 5000 else 0) +
    (match (robots.flatMap fun r => exits.map fun e =>
        manhattanDistance e r).min? with
     | some d => ((100 : Int) - d).toNat
     | none => 0)

/-- The amended per-tick score formula: the proximity bonus is
`max(0, 100 - d)` with `d` the minimum Manhattan distance from a **living**
robot to the nearest exit, and it is awarded only when the level has exits
and at least one robot is alive. -/
def specScorePerTick (robots : List RobotState) (exits : List Exit)
    (savedCount : Nat) (events : EventSummary) (status : SimulationStatus) :
    Nat :=
  savedCount * 1000 +
    (if events.doorOpened then 50 else 0) +
    (if events.pressurePlatePressed then 25 else 0) +
    (if events.raftUsed then 50 else 0) +
    (if events.waterTouched then 10 else 0) +
    (if status = .won then 5000 else 0) +
    (if exits.length > 0 then
      match ((robots.filter fun r => r.alive).flatMap fun r =>
          exits.map fun e => manhattanDistance e r).min? with
      | some d => ((100 : Int) - d).toNat
      | none => 0
     else 0)

/-- Minimum of two optional naturals, `none` acting as infinity. -/
def ominN : Option Nat → Option Nat → Option Nat
  | none, b => b
  | some m, none => some m
  | some m, some d => some (min m d)

/-- The fold step of the `minDistance` accumulator of `computeScore`, over a
precomputed distance. -/
def stepMinN (a : Option Nat) (d : Nat) : Option Nat :=
  match a with
  | none => some d
  | some m => some (min m d)

/-- Replay of the evaluator's best-score/best-snapshot accumulator over an
explicit list of per-tick (score, robot-snapshot) observations. -/
def pickBest (acc : EvalAcc) : List (Nat × List RobotState) → EvalAcc
  | [] => acc
  | (score, robots) :: rest =>
      pickBest
        (if scoreGtB (some score) acc.bestScore then
          { bestScore := some score, bestRobots := robots }
         else acc)
        rest

/-- Fold step for the maximum of a score list starting from `-Infinity`. -/
def optMaxB (b : Option Nat) (s : Nat) : Option Nat :=
  some (match b with
    | none => s
    | some m => max m s)

/-- The per-tick (score, robot snapshot) sequence the evaluator's loop
observes: the same tick evolution as `evalLoop`, stripped of the best-score
accumulator and the trace sampling (which the evolution does not read). -/
def evalTicks (vmFuel : Nat) (compiled : ProgramNode) (options : EvalOptions) :
    Nat → SimulationState → List (String × VmState) → EventSummary →
    Option (List (Nat × List RobotState))
  | fuel, sim, vms, events =>
      if sim.status ≠ .running then some []
      else
        match fuel with
        | 0 => none
        | fuel' + 1 =>
            let doorOpen := isDoorOpen sim.world sim.robots sim.doorUnlocked
            match collectActions vmFuel compiled options sim doorOpen
              sim.robots vms [] false with
            | none => none
            | some (vms', actions, sawStepLimit) =>
                let hasRemainingSpawns := sim.spawnedCount < sim.spawner.count
                let sim1 :=
                  if actions.any (fun a => a.isSome) ||
                      (sim.robots.length = 0 && hasRemainingSpawns) then
                    stepSimulation sim actions
                  else if !hasRemainingSpawns then { sim with status := .lost }
                  else sim
                let sim2 :=
                  if sawStepLimit && sim1.status = .running then
                    { sim1 with status := .lost }
                  else sim1
                let doorOpen2 := isDoorOpen sim2.world sim2.robots sim2.doorUnlocked
                let events' := updateEvents events sim2.robots sim2.world
                  doorOpen2 (savedCountOf sim2)
                let score := computeScore sim2.robots sim2.exits
                  (savedCountOf sim2) events' sim2.status
                (evalTicks vmFuel compiled options fuel' sim2 vms' events').map
                  fun rest => (score, snapshotRobots sim2.robots) :: rest

/-- The initial accumulator of `evaluate` for a level. -/
def evalInitAcc (level : SolverLevelDefinition) (options : EvalOptions) :
    EvalAcc :=
  { bestScore := none
    bestRobots := snapshotRobots (createSimulationForLevel level options).robots }

/-- The per-tick observations of a whole `evaluate` run. -/
def evalTicksOf (vmFuel tickFuel : Nat) (program : SolverProgram)
    (level : SolverLevelDefinition) (options : EvalOptions) :
    Option (List (Nat × List RobotState)) :=
  evalTicks vmFuel (toProgramNode program) options tickFuel
    (createSimulationForLevel level options) []
    { doorOpened := false, pressurePlatePressed := false, raftUsed := false
      waterTouched := false, anySaved := false }

/-! ### Named stages of `stepSimulationRun` (the function's own `let`s, given
names so the theorems below can speak about them) -/

def stepSpawned (s : SimulationState) : SpawnOutcome :=
  spawnNextRobot s (buildOccupiedPositions s.robots)

def stepResolved (s : SimulationState) (a : List (Option RobotAction)) :
    List RobotState × Bool :=
  resolveRobotActions s.world s.exits
    (isDoorOpen s.world (stepSpawned s).robots s.doorUnlocked) a
    (stepSpawned s).robots 0 (buildOccupiedPositions (stepSpawned s).robots)
    s.globalSignal

def stepRaft (s : SimulationState) (a : List (Option RobotAction)) :
    RaftMoveResult :=
  moveRafts s (stepResolved s a).1

def stepFinalRobots (s : SimulationState) (a : List (Option RobotAction)) :
    List RobotState :=
  (stepRaft s a).robots.map (applyExitStatus (stepRaft s a).world s.exits)

/-! ### Concrete fixtures for the witnesses and counterexamples -/

/-- A 5-cell open east-west corridor. -/
def corridorWorld : World := createWorld [[0, 0, 0, 0, 0]]

/-- Leader at `x = 2`, follower at `x = 1`, both facing east, robot array in
`[leader, follower]` order; no pending spawns. -/
def corridorState : SimulationState :=
  { world := corridorWorld
    robots := [createRobotState 2 0 1 "r1", createRobotState 1 0 1 "r2"]
    spawner := { x := 0, y := 0, dir := 1, count := 0, intervalTicks := 0 }
    exits := []
    status := .running
    stepCount := 0
    maxSteps := 200
    requiredSaved := 1
    spawnedCount := 0
    nextSpawnTick := none
    doorUnlocked := false
    globalSignal := false
    raftStates := []
    jettyPositions := [] }

/-- Spawner with `count = 2`, `intervalTicks = 1` in a 3-cell corridor. -/
def spawnConfig : SimulationConfig :=
  { world := createWorld [[0, 0, 0]]
    spawner := { x := 0, y := 0, dir := 1, count := 2, intervalTicks := 1 } }

def spawnSim0 : SimulationState := createSimulation spawnConfig

/-- Tick at `stepCount = 0`: before the scheduled spawn tick. -/
def spawnSim1 : SimulationState := stepSimulation spawnSim0 [some .WAIT]

/-- Tick at `stepCount = 1`, the scheduled spawn tick, with the first robot
still standing on the entry cell (it moves away during this same tick). -/
def spawnSim2 : SimulationState := stepSimulation spawnSim1 [some .MOVE_FORWARD]

/-- Tick at `stepCount = 2`: the entry cell is free again. -/
def spawnSim3 : SimulationState :=
  stepSimulation spawnSim2 [some .WAIT, some .WAIT]

/-- Level whose single robot must advance over a hazard cell, with an
explicit exit beyond it. -/
def hazardLevel : SolverLevelDefinition :=
  { grid := [[0, 3, 0]]
    spawner := some { x := 0, y := 0, dir := .num 1, count := 1, intervalTicks := 0 }
    exits := some [{ x := 2, y := 0 }] }

def moveOnceProgram : SolverProgram := [.action .MOVE_FORWARD]

/-- Level with the goal one step east of the spawn cell. -/
def goalLevel : SolverLevelDefinition :=
  { grid := [[0, 2]]
    spawner := some { x := 0, y := 0, dir := .num 1, count := 1, intervalTicks := 0 } }

def goalSearchOptions : SolverSearchOptions :=
  { maxAttempts := some 5
    maxDepth := some 1
    beamWidth := some 1
    actions := [.MOVE_FORWARD] }

/-- The evaluation of the empty program on `goalLevel` (the search's first
candidate): one pass through the loop, the lone robot never moves, the run is
lost without a tick. -/
def goalEval0 : EvalResult :=
  { solved := false
    score := some 0
    ticks := 0
    finalRobots :=
      [{ id := "robot-1", x := 0, y := 0, direction := 1, alive := true, reachedGoal := false }]
    bestRobots :=
      [{ id := "robot-1", x := 0, y := 0, direction := 1, alive := true, reachedGoal := false }]
    events :=
      { doorOpened := false, pressurePlatePressed := false, raftUsed := false, waterTouched := false, anySaved := false }
    traceLite :=
      { sampleEvery := 5
        frames :=
          [[{ id := "robot-1", x := 0, y := 0, dir := 1, status := .alive }],
            [{ id := "robot-1", x := 0, y := 0, dir := 1, status := .alive }]] } }

/-- The search context after the initial candidate of the `goalLevel` run. -/
def goalCtx1 : SearchCtx :=
  { attempts := 1, bestProgram := some [], bestEval := some goalEval0
    solved := false, lastProgressAttempt := 0, timeChecks := 1 }

/-- The evaluation of `[MOVE_FORWARD]` on `goalLevel`: the robot steps onto
the goal cell and the run is won with score `1*1000 + 5000`. -/
def goalEval1 : EvalResult :=
  { solved := true
    score := some 6000
    ticks := 1
    finalRobots :=
      [{ id := "robot-1", x := 1, y := 0, direction := 1, alive := true, reachedGoal := true }]
    bestRobots :=
      [{ id := "robot-1", x := 1, y := 0, direction := 1, alive := true, reachedGoal := true }]
    events :=
      { doorOpened := false, pressurePlatePressed := false, raftUsed := false, waterTouched := false, anySaved := true }
    traceLite :=
      { sampleEvery := 5
        frames :=
          [[{ id := "robot-1", x := 0, y := 0, dir := 1, status := .alive }],
            [{ id := "robot-1", x := 1, y := 0, dir := 1, status := .saved }]] } }

/-- The search context after the depth loop of the `goalLevel` run. -/
def goalCtx2 : SearchCtx :=
  { attempts := 2, bestProgram := some [.action .MOVE_FORWARD]
    bestEval := some goalEval1
    solved := true, lastProgressAttempt := 0, timeChecks := 5 }

/-- The full outcome of the beam search on `goalLevel`. -/
def goalSearchResultValue : SearchResult :=
  { solved := true
    state := { bestProgram := some [.action .MOVE_FORWARD]
               bestEval := some goalEval1
               attempts := 2
               startedAt := 0 } }

/-- A primitive condition that is false whenever the context's global signal
is off. -/
def neverCond : ConditionNode := .primitive .GLOBAL_SIGNAL_ON

/-- A one-cell world context with the global signal off, under which
`neverCond` never evaluates to true. -/
def plainCtx : VmContext :=
  { world := createWorld [[0]]
    robot := createRobotState 0 0 1
    exits := []
    globalSignal := false
    doorOpen := false }

/-- `RepeatUntil` with a never-true condition and an **empty** body. -/
def emptyLoopProgram : ProgramNode := [.repeatUntil neverCond [] "b1"]

/-- `RepeatUntil` with a never-true condition and a single `WAIT` action. -/
def waitLoopProgram : ProgramNode :=
  [.repeatUntil neverCond [.action .WAIT "a1"] "b1"]

/-- `Repeat(1, body)` whose body is the diverging empty `RepeatUntil`. -/
def repeatStuckProgram : ProgramNode :=
  [.repeatN 1 [.repeatUntil neverCond [] "b2"] "b1"]

/-- First `stepVm` call on the `WAIT`-body repeat-until program with room in
the step budget. -/
def waitLoopFirst : VmStepResult :=
  (stepVm 10 (createVm waitLoopProgram 5) plainCtx).getD
    ⟨createVm waitLoopProgram 5, none⟩

/-- First `stepVm` call on the same program with a zero step budget. -/
def limitFirst : VmStepResult :=
  (stepVm 10 (createVm waitLoopProgram 0) plainCtx).getD
    ⟨createVm waitLoopProgram 0, none⟩

/-- A world with a door east of the robot, and the latch already set. -/
def doorWorld : World := createWorld [[0, 5, 0]]

def doorState : SimulationState :=
  { world := doorWorld
    robots := [createRobotState 0 0 1 "r1"]
    spawner := { x := 0, y := 0, dir := 1, count := 0, intervalTicks := 0 }
    exits := [{ x := 2, y := 0 }]
    status := .running
    stepCount := 0
    maxSteps := 200
    requiredSaved := 1
    spawnedCount := 0
    nextSpawnTick := none
    doorUnlocked := true
    globalSignal := false
    raftStates := []
    jettyPositions := [] }

/-- The same door state with the latch still unset. -/
def doorLockedState : SimulationState := { doorState with doorUnlocked := false }

/-- A world with a hazard cell east of a robot. -/
def hazardWorld : World := createWorld [[0, 3]]

/-- A world with a water cell east of a robot. -/
def waterWorld : World := createWorld [[0, 6]]

/-- A world with a raft cell east of a robot. -/
def raftWorld : World := createWorld [[0, 7]]

def eastRobot : RobotState := createRobotState 0 0 1

/-! ## Theorems -/

/-- C2: in a single `stepSimulation` on the open corridor, with the leader at
`x = 2` and the follower at `x = 1`, both facing east and both advancing, the
leader ends at `x = 3` and the follower at `x = 2`: the leader's vacated cell
is freed for the follower processed later in array order. -/
theorem convoy_single_tick :
    ((stepSimulation corridorState [some .MOVE_FORWARD, some .MOVE_FORWARD]).robots.map
      fun r => (r.x, r.y)) = [(3, 0), (2, 0)] := by
  decide

/-- C8: with `count = 2`, `intervalTicks = 1`, the entry cell being occupied
at the scheduled spawn tick (`stepCount = 1 = nextSpawnTick`) defers the
second spawn — `spawnedCount` stays `1` and `nextSpawnTick` stays `1` — and
the spawn happens exactly one tick later once the cell is free, advancing
`spawnedCount` to `2` and `nextSpawnTick` to `2`. -/
theorem delayed_spawn_one_tick :
    spawnSim1.robots.length = 1 ∧ spawnSim1.spawnedCount = 1 ∧
      spawnSim1.nextSpawnTick = some 1 ∧ spawnSim1.stepCount = 1 ∧
    spawnSim2.robots.length = 1 ∧ spawnSim2.spawnedCount = 1 ∧
      spawnSim2.nextSpawnTick = some 1 ∧ spawnSim2.stepCount = 2 ∧
    spawnSim3.robots.length = 2 ∧ spawnSim3.spawnedCount = 2 ∧
      spawnSim3.nextSpawnTick = some 2 ∧
      ((spawnSim3.robots.map fun r => (r.id, r.x, r.y)) =
        [("robot-1", 1, 0), ("robot-2", 0, 0)]) := by
  decide

/-- C9: a living, unsaved robot advancing onto a `Hazard` or `Water` tile
does move onto it and dies there — water is exactly as lethal as hazard —
while advancing onto a `Raft` tile moves the robot and leaves it alive. -/
theorem advance_onto_hazard_or_water_kills (world : World) (robot : RobotState)
    (halive : robot.alive = true) (hgoal : robot.reachedGoal = false) :
    (∀ t, t = TileType.Hazard ∨ t = TileType.Water →
      getTile world (getForwardPosition (robotPos robot) robot.direction).x
        (getForwardPosition (robotPos robot) robot.direction).y = t →
      (applyAction world robot .MOVE_FORWARD).x =
          (getForwardPosition (robotPos robot) robot.direction).x ∧
        (applyAction world robot .MOVE_FORWARD).y =
          (getForwardPosition (robotPos robot) robot.direction).y ∧
        (applyAction world robot .MOVE_FORWARD).alive = false) ∧
    (getTile world (getForwardPosition (robotPos robot) robot.direction).x
        (getForwardPosition (robotPos robot) robot.direction).y = TileType.Raft →
      (applyAction world robot .MOVE_FORWARD).x =
          (getForwardPosition (robotPos robot) robot.direction).x ∧
        (applyAction world robot .MOVE_FORWARD).y =
          (getForwardPosition (robotPos robot) robot.direction).y ∧
        (applyAction world robot .MOVE_FORWARD).alive = true) := by
  constructor
  · intro t ht htile
    rcases ht with h | h <;> subst h <;>
      simp [applyAction, halive, hgoal, isWall, isHazard, isGoal, htile,
        TileType.Wall, TileType.Hazard, TileType.Water, TileType.Goal]
  · intro htile
    simp [applyAction, halive, hgoal, isWall, isHazard, isGoal, htile,
      TileType.Wall, TileType.Hazard, TileType.Water, TileType.Goal,
      TileType.Raft]

/-- C9 witness: a concrete robot advancing east onto a hazard tile, a water
tile, and a raft tile. -/
theorem advance_onto_hazard_or_water_kills_witness :
    ((applyAction hazardWorld eastRobot .MOVE_FORWARD).x = 1 ∧
      (applyAction hazardWorld eastRobot .MOVE_FORWARD).y = 0 ∧
      (applyAction hazardWorld eastRobot .MOVE_FORWARD).alive = false) ∧
    ((applyAction waterWorld eastRobot .MOVE_FORWARD).x = 1 ∧
      (applyAction waterWorld eastRobot .MOVE_FORWARD).y = 0 ∧
      (applyAction waterWorld eastRobot .MOVE_FORWARD).alive = false) ∧
    ((applyAction raftWorld eastRobot .MOVE_FORWARD).x = 1 ∧
      (applyAction raftWorld eastRobot .MOVE_FORWARD).y = 0 ∧
      (applyAction raftWorld eastRobot .MOVE_FORWARD).alive = true) :=
  ⟨(advance_onto_hazard_or_water_kills hazardWorld eastRobot rfl rfl).1
      TileType.Hazard (Or.inl rfl) (by decide),
   (advance_onto_hazard_or_water_kills waterWorld eastRobot rfl rfl).1
      TileType.Water (Or.inr rfl) (by decide),
   (advance_onto_hazard_or_water_kills raftWorld eastRobot rfl rfl).2
      (by decide)⟩

/-- `stepSimulationRun` written through its named stages. -/
theorem stepSimulationRun_eq (s : SimulationState)
    (a : List (Option RobotAction)) :
    stepSimulationRun s a = { s with
      robots := stepFinalRobots s a
      spawnedCount := (stepSpawned s).spawnedCount
      nextSpawnTick := (stepSpawned s).nextSpawnTick
      stepCount := s.stepCount + 1
      doorUnlocked := s.doorUnlocked ||
        isPressurePlatePressed s.world (stepSpawned s).robots ||
        isPressurePlatePressed (stepRaft s a).world (stepFinalRobots s a)
      globalSignal := (stepResolved s a).2
      world := (stepRaft s a).world
      raftStates := (stepRaft s a).raftStates
      status :=
        if (countSaved (stepFinalRobots s a) : Int) ≥ s.requiredSaved then .won
        else if s.stepCount + 1 ≥ s.maxSteps then .lost
        else if !(stepFinalRobots s a).any (fun r => r.alive && !r.reachedGoal) &&
            !((stepSpawned s).spawnedCount < s.spawner.count) then .lost
        else s.status } := rfl

theorem spawnNextRobot_robots (s : SimulationState) (occ : OccupiedSet) :
    (spawnNextRobot s occ).robots = s.robots ∨
    (spawnNextRobot s occ).robots =
      s.robots ++ [createSpawnedRobot s.spawner s.spawnedCount] := by
  unfold spawnNextRobot
  split
  · exact Or.inl rfl
  · split
    · exact Or.inl rfl
    · split
      · exact Or.inl rfl
      · split
        · exact Or.inl rfl
        · split
          · exact Or.inl rfl
          · exact Or.inr rfl

theorem isPressurePlatePressed_append (w : World) (l l' : List RobotState)
    (h : isPressurePlatePressed w l = true) :
    isPressurePlatePressed w (l ++ l') = true := by
  simp only [isPressurePlatePressed, List.any_append, Bool.or_eq_true]
  exact Or.inl h

theorem stepSpawned_pressed (s : SimulationState)
    (h : isPressurePlatePressed s.world s.robots = true) :
    isPressurePlatePressed s.world (stepSpawned s).robots = true := by
  rcases spawnNextRobot_robots s (buildOccupiedPositions s.robots) with hr | hr <;>
    simp only [stepSpawned, hr]
  · exact h
  · exact isPressurePlatePressed_append _ _ _ h

/-- The `doorUnlocked` latch can only be set by a step, never cleared. -/
theorem step_doorUnlocked_mono (s : SimulationState)
    (a : List (Option RobotAction)) (h : s.doorUnlocked = true) :
    (stepSimulation s a).doorUnlocked = true := by
  by_cases hs : s.status = .running
  · simp [stepSimulation, hs, stepSimulationRun_eq, h]
  · simp [stepSimulation, hs, h]

/-- C6: a plate press makes `doorUnlocked` true in the resulting state
(whether pressed at tick start or in the post-move robot configuration), the
latch persists through every further step, a true latch makes `isDoorOpen`
true — the door-passability test — and, concretely, a robot facing a door
tile advances through it when the latch is set (plate long vacated) and is
blocked when it is not. -/
theorem door_latch (s : SimulationState) (a : List (Option RobotAction)) :
    (s.status = .running → isPressurePlatePressed s.world s.robots = true →
      (stepSimulation s a).doorUnlocked = true) ∧
    (s.doorUnlocked = true → (stepSimulation s a).doorUnlocked = true) ∧
    (s.status = .running →
      isPressurePlatePressed (stepSimulation s a).world
        (stepSimulation s a).robots = true →
      (stepSimulation s a).doorUnlocked = true) ∧
    (∀ (w : World) (robots : List RobotState), isDoorOpen w robots true = true) ∧
    (((stepSimulation doorState [some .MOVE_FORWARD]).robots.map fun r => r.x) = [1] ∧
      ((stepSimulation doorLockedState [some .MOVE_FORWARD]).robots.map fun r => r.x) = [0]) := by
  refine ⟨?_, step_doorUnlocked_mono s a, ?_, ?_, by decide, by decide⟩
  · intro hs h
    simp [stepSimulation, hs, stepSimulationRun_eq, stepSpawned_pressed s h]
  · intro hs h
    simp only [stepSimulation, hs, ne_eq, not_true_eq_false, if_false,
      stepSimulationRun_eq] at h ⊢
    simp only [Bool.or_eq_true]
    exact Or.inr h
  · intro w robots
    simp [isDoorOpen]

/-- C6 witness: the concrete press/latch/passability facts, instantiating the
general conjuncts on the plate state and the unlocked door state. -/
theorem door_latch_witness :
    (stepSimulation doorState [some .WAIT]).doorUnlocked = true ∧
    ((stepSimulation doorState [some .MOVE_FORWARD]).robots.map fun r => r.x) = [1] :=
  ⟨(door_latch doorState [some .WAIT]).2.1 rfl,
   (door_latch doorState [some .MOVE_FORWARD]).2.2.2.2.1⟩

theorem monoFlags_refl (r : RobotState) : monoFlags r r :=
  ⟨fun h => h, fun h => h⟩

theorem monoFlags_trans {r r₁ r₂ : RobotState} (h1 : monoFlags r r₁)
    (h2 : monoFlags r₁ r₂) : monoFlags r r₂ :=
  ⟨fun h => h2.1 (h1.1 h), fun h => h2.2 (h1.2 h)⟩

/-- `applyAction` returns a dead or saved robot unchanged. -/
theorem applyAction_of_not_blocking (w : World) (r : RobotState)
    (act : RobotAction) (h : r.alive = false ∨ r.reachedGoal = true) :
    applyAction w r act = r := by
  rcases h with h | h <;> simp [applyAction, h]

theorem applyAction_monoFlags (w : World) (r : RobotState) (act : RobotAction) :
    monoFlags r (applyAction w r act) := by
  constructor
  · intro h; rw [applyAction_of_not_blocking w r act (Or.inl h)]; exact h
  · intro h; rw [applyAction_of_not_blocking w r act (Or.inr h)]; exact h

theorem applyExitStatus_alive (w : World) (e : List Exit) (r : RobotState) :
    (applyExitStatus w e r).alive = r.alive := by
  unfold applyExitStatus
  split_ifs <;> rfl

theorem applyExitStatus_monoFlags (w : World) (e : List Exit) (r : RobotState) :
    monoFlags r (applyExitStatus w e r) := by
  refine ⟨fun h => ?_, fun h => ?_⟩
  · rw [applyExitStatus_alive]; exact h
  · simp [applyExitStatus, h]

/-- Every robot the action-resolution stage outputs is the exit-status update
of either the untouched input robot or its `applyAction` image, so the
one-way flags are monotone position by position. -/
theorem resolveRobotActions_get (w : World) (e : List Exit) (d : Bool)
    (acts : List (Option RobotAction)) :
    ∀ (robots : List RobotState) (idx : Nat) (occ : OccupiedSet) (sig : Bool)
      (i : Nat) (r : RobotState), robots[i]? = some r →
      ∃ r', (resolveRobotActions w e d acts robots idx occ sig).1[i]? = some r' ∧
        monoFlags r r' := by
  intro robots
  induction robots with
  | nil => intro idx occ sig i r hr; simp at hr
  | cons robot rest ih =>
    intro idx occ sig i r hr
    cases i with
    | zero =>
      rw [List.getElem?_cons_zero] at hr
      injection hr with hr
      subst hr
      cases hact : acts.getD idx none with
      | none =>
          refine ⟨applyExitStatus w e robot, ?_, applyExitStatus_monoFlags w e robot⟩
          simp only [resolveRobotActions, hact, List.getElem?_cons_zero]
      | some action =>
          simp only [resolveRobotActions, hact]
          refine ⟨_, List.getElem?_cons_zero, ?_⟩
          refine monoFlags_trans ?_ (applyExitStatus_monoFlags w e _)
          split_ifs <;>
            first
            | exact applyAction_monoFlags w robot action
            | exact monoFlags_refl robot
    | succ n =>
      rw [List.getElem?_cons_succ] at hr
      cases hact : acts.getD idx none with
      | none =>
          simp only [resolveRobotActions, hact, List.getElem?_cons_succ]
          exact ih (idx + 1) occ sig n r hr
      | some action =>
          simp only [resolveRobotActions, hact, List.getElem?_cons_succ]
          exact ih (idx + 1) _ _ n r hr

/-- One raft-ferry fold step never touches a robot's flags. -/
theorem moveRaftsStep_flags (j : List Position) (acc : RaftMoveAcc)
    (raft : RaftState) :
    ((moveRaftsStep j acc raft).robots.map fun r => (r.alive, r.reachedGoal)) =
      acc.robots.map fun r => (r.alive, r.reachedGoal) := by
  simp only [moveRaftsStep]
  split
  · rfl
  · split
    · split
      · rfl
      · simp only [List.map_map]
        refine List.map_congr_left fun r _ => ?_
        simp only [Function.comp_apply]
        split <;> rfl
    · split
      · split
        · split
          · rfl
          · rfl
        · rfl
      · rfl

theorem moveRafts_flags (s : SimulationState) (robots : List RobotState) :
    ((moveRafts s robots).robots.map fun r => (r.alive, r.reachedGoal)) =
      robots.map fun r => (r.alive, r.reachedGoal) := by
  unfold moveRafts
  split
  · rfl
  · have h : ∀ (rafts : List RaftState) (acc : RaftMoveAcc),
        ((rafts.foldl (moveRaftsStep s.jettyPositions) acc).robots.map
          fun r => (r.alive, r.reachedGoal)) =
        acc.robots.map fun r => (r.alive, r.reachedGoal) := by
      intro rafts
      induction rafts with
      | nil => intro acc; rfl
      | cons raft rest ih =>
          intro acc
          rw [List.foldl_cons, ih, moveRaftsStep_flags]
    exact h _ _

/-- Through the raft stage and the final exit-status pass, flags stay
monotone position by position. -/
theorem stepFinalRobots_get (s : SimulationState)
    (a : List (Option RobotAction)) (i : Nat) (r₁ : RobotState)
    (h : (stepResolved s a).1[i]? = some r₁) :
    ∃ r', (stepFinalRobots s a)[i]? = some r' ∧ monoFlags r₁ r' := by
  have hmap := moveRafts_flags s (stepResolved s a).1
  have hflag : ((stepRaft s a).robots[i]?.map fun r => (r.alive, r.reachedGoal)) =
      some (r₁.alive, r₁.reachedGoal) := by
    have h1 : ((stepRaft s a).robots.map fun r => (r.alive, r.reachedGoal))[i]? =
        ((stepResolved s a).1.map fun r => (r.alive, r.reachedGoal))[i]? := by
      rw [show (stepRaft s a).robots = (moveRafts s (stepResolved s a).1).robots from rfl,
        hmap]
    rw [List.getElem?_map, List.getElem?_map, h] at h1
    exact h1
  rcases h2 : (stepRaft s a).robots[i]? with _ | r₂
  · rw [h2] at hflag; simp at hflag
  · rw [h2] at hflag
    simp only [Option.map_some'] at hflag
    injection hflag with hflag
    have halive : r₂.alive = r₁.alive := congrArg Prod.fst hflag
    have hreach : r₂.reachedGoal = r₁.reachedGoal := congrArg Prod.snd hflag
    refine ⟨applyExitStatus (stepRaft s a).world s.exits r₂, ?_, ?_⟩
    · rw [show stepFinalRobots s a =
          (stepRaft s a).robots.map (applyExitStatus (stepRaft s a).world s.exits)
        from rfl, List.getElem?_map, h2, Option.map_some']
    · refine @monoFlags_trans _ r₂ _ ⟨fun hh => ?_, fun hh => ?_⟩
        (applyExitStatus_monoFlags _ _ r₂)
      · rw [halive]; exact hh
      · rw [hreach]; exact hh

/-- C7: across one `stepSimulation`, the robot at any array position can only
lose `alive` (never regain it) and only gain `reachedGoal` (never lose it),
and the state's `doorUnlocked` latch can only be set, never cleared. -/
theorem flags_and_latch_monotone (s : SimulationState)
    (a : List (Option RobotAction)) :
    (∀ (i : Nat) (r r' : RobotState), s.robots[i]? = some r →
      (stepSimulation s a).robots[i]? = some r' → monoFlags r r') ∧
    (s.doorUnlocked = true → (stepSimulation s a).doorUnlocked = true) := by
  refine ⟨?_, step_doorUnlocked_mono s a⟩
  intro i r r' hr hr'
  by_cases hs : s.status = .running
  · simp only [stepSimulation, hs, ne_eq, not_true_eq_false, if_false,
      stepSimulationRun_eq] at hr'
    have hi : i < s.robots.length := by
      rcases List.getElem?_eq_some_iff.mp hr with ⟨hlt, _⟩
      exact hlt
    have hsp : (stepSpawned s).robots[i]? = some r := by
      rcases spawnNextRobot_robots s (buildOccupiedPositions s.robots) with h | h <;>
        simp only [stepSpawned, h]
      · exact hr
      · rw [List.getElem?_append_left hi]; exact hr
    obtain ⟨r₁, h1, m1⟩ := resolveRobotActions_get s.world s.exits
      (isDoorOpen s.world (stepSpawned s).robots s.doorUnlocked) a
      (stepSpawned s).robots 0 (buildOccupiedPositions (stepSpawned s).robots)
      s.globalSignal i r hsp
    obtain ⟨r₂, h2, m2⟩ := stepFinalRobots_get s a i r₁ h1
    rw [hr'] at h2
    injection h2 with h2
    rw [h2]
    exact monoFlags_trans m1 m2
  · simp only [stepSimulation, hs, ne_eq, not_false_eq_true, if_true] at hr'
    rw [hr] at hr'
    injection hr' with hr'
    rw [← hr']
    exact monoFlags_refl r

/-- C7 witness: the monotonicity instantiated on the corridor step (flags) and
on the unlocked-door state (latch). -/
theorem flags_and_latch_monotone_witness :
    monoFlags (createRobotState 2 0 1 "r1")
      { id := "r1", x := 3, y := 0, direction := 1, alive := true,
        reachedGoal := false } ∧
    (stepSimulation doorState [some .MOVE_FORWARD]).doorUnlocked = true :=
  ⟨(flags_and_latch_monotone corridorState
      [some .MOVE_FORWARD, some .MOVE_FORWARD]).1 0 _ _ (by decide) (by decide),
   (flags_and_latch_monotone doorState [some .MOVE_FORWARD]).2 rfl⟩

theorem getTile_outside (w : World) (x y : Int)
    (h : x < 0 ∨ y < 0 ∨ w.width ≤ x ∨ w.height ≤ y) :
    getTile w x y = TileType.Wall := by
  have hin : isInsideWorld w x y = false := by
    simp only [isInsideWorld, Bool.and_eq_false_iff, decide_eq_false_iff_not,
      not_le, not_lt]
    omega
  simp [getTile, hin]

theorem inside_of_not_wall (w : World) (x y : Int)
    (h : isWall w x y = false) : isInsideWorld w x y = true := by
  by_contra hin
  have hfalse : isInsideWorld w x y = false := by
    cases hxy : isInsideWorld w x y
    · rfl
    · exact absurd hxy hin
  have : getTile w x y = TileType.Wall := by simp [getTile, hfalse]
  simp [isWall, this] at h

theorem applyExitStatus_pos (w : World) (e : List Exit) (r : RobotState) :
    (applyExitStatus w e r).x = r.x ∧ (applyExitStatus w e r).y = r.y := by
  unfold applyExitStatus
  split_ifs <;> exact ⟨rfl, rfl⟩

/-- An unblocked advance of a blocking robot lands exactly on the forward
cell. -/
theorem applyAction_move_free_pos (w : World) (r : RobotState)
    (hb : (!r.alive || r.reachedGoal) = false)
    (hw : isWall w (getForwardPosition (robotPos r) r.direction).x
      (getForwardPosition (robotPos r) r.direction).y = false) :
    (applyAction w r .MOVE_FORWARD).x =
        (getForwardPosition (robotPos r) r.direction).x ∧
      (applyAction w r .MOVE_FORWARD).y =
        (getForwardPosition (robotPos r) r.direction).y := by
  simp only [applyAction, hb, Bool.false_eq_true, if_false, hw, Bool.not_false,
    if_true]
  split_ifs <;> exact ⟨rfl, rfl⟩

/-- A blocked advance (destination outside or otherwise walled) leaves the
robot's position unchanged. -/
theorem applyAction_blocked_pos (w : World) (r : RobotState)
    (hw : isWall w (getForwardPosition (robotPos r) r.direction).x
      (getForwardPosition (robotPos r) r.direction).y = true) :
    (applyAction w r .MOVE_FORWARD).x = r.x ∧
      (applyAction w r .MOVE_FORWARD).y = r.y := by
  by_cases hb : (!r.alive || r.reachedGoal) = true
  · simp [applyAction, hb]
  · have hb' : (!r.alive || r.reachedGoal) = false := by
      cases hc : (!r.alive || r.reachedGoal)
      · rfl
      · exact absurd hc hb
    simp only [applyAction, hb', Bool.false_eq_true, if_false, hw,
      Bool.not_true]
    split_ifs <;> exact ⟨rfl, rfl⟩

/-- A non-advance action never changes the robot's position. -/
theorem applyAction_nonmove_pos (w : World) (r : RobotState)
    (act : RobotAction) (hact : act ≠ .MOVE_FORWARD) :
    (applyAction w r act).x = r.x ∧ (applyAction w r act).y = r.y := by
  by_cases hb : (!r.alive || r.reachedGoal) = true
  · simp [applyAction, hb]
  · have hb' : (!r.alive || r.reachedGoal) = false := by
      cases hc : (!r.alive || r.reachedGoal)
      · rfl
      · exact absurd hc hb
    cases act <;>
      first
      | exact absurd rfl hact
      | · simp only [applyAction, hb', Bool.false_eq_true, if_false]
          split_ifs <;> exact ⟨rfl, rfl⟩

/-- Every robot position `applyAction` can produce is either the old one or a
non-wall cell. -/
theorem applyAction_inside (w : World) (r : RobotState) (act : RobotAction)
    (h : isInsideWorld w r.x r.y = true) :
    isInsideWorld w (applyAction w r act).x (applyAction w r act).y = true := by
  by_cases hb : (!r.alive || r.reachedGoal) = true
  · simp [applyAction, hb]; exact h
  · have hb' : (!r.alive || r.reachedGoal) = false := by
      cases hc : (!r.alive || r.reachedGoal)
      · rfl
      · exact absurd hc hb
    cases act with
    | MOVE_FORWARD =>
        cases hw : isWall w (getForwardPosition (robotPos r) r.direction).x
            (getForwardPosition (robotPos r) r.direction).y with
        | true =>
            rcases applyAction_blocked_pos w r hw with ⟨hx, hy⟩
            rw [hx, hy]; exact h
        | false =>
            rcases applyAction_move_free_pos w r hb' hw with ⟨hx, hy⟩
            rw [hx, hy]
            exact inside_of_not_wall w _ _ hw
    | TURN_LEFT =>
        rcases applyAction_nonmove_pos w r .TURN_LEFT (by simp) with ⟨hx, hy⟩
        rw [hx, hy]; exact h
    | TURN_RIGHT =>
        rcases applyAction_nonmove_pos w r .TURN_RIGHT (by simp) with ⟨hx, hy⟩
        rw [hx, hy]; exact h
    | WAIT =>
        rcases applyAction_nonmove_pos w r .WAIT (by simp) with ⟨hx, hy⟩
        rw [hx, hy]; exact h
    | SIGNAL_ON =>
        rcases applyAction_nonmove_pos w r .SIGNAL_ON (by simp) with ⟨hx, hy⟩
        rw [hx, hy]; exact h
    | SIGNAL_OFF =>
        rcases applyAction_nonmove_pos w r .SIGNAL_OFF (by simp) with ⟨hx, hy⟩
        rw [hx, hy]; exact h

theorem resolveRobotActions_inside (w : World) (e : List Exit) (d : Bool)
    (acts : List (Option RobotAction)) :
    ∀ (robots : List RobotState) (idx : Nat) (occ : OccupiedSet) (sig : Bool),
      (∀ r ∈ robots, isInsideWorld w r.x r.y = true) →
      ∀ r' ∈ (resolveRobotActions w e d acts robots idx occ sig).1,
        isInsideWorld w r'.x r'.y = true := by
  intro robots
  induction robots with
  | nil => intro idx occ sig _ r' hr'; simp [resolveRobotActions] at hr'
  | cons robot rest ih =>
    intro idx occ sig hall r' hr'
    have hhead := hall robot (List.mem_cons_self robot rest)
    have htail : ∀ r ∈ rest, isInsideWorld w r.x r.y = true :=
      fun r hr => hall r (List.mem_cons_of_mem robot hr)
    cases hact : acts.getD idx none with
    | none =>
        simp only [resolveRobotActions, hact, List.mem_cons] at hr'
        rcases hr' with hr' | hr'
        · subst hr'
          rcases applyExitStatus_pos w e robot with ⟨hx, hy⟩
          rw [hx, hy]; exact hhead
        · exact ih (idx + 1) occ sig htail r' hr'
    | some action =>
        simp only [resolveRobotActions, hact, List.mem_cons] at hr'
        rcases hr' with hr' | hr'
        · subst hr'
          rcases applyExitStatus_pos w e _ with ⟨hx, hy⟩
          rw [hx, hy]
          split_ifs <;>
            first
            | exact applyAction_inside w robot action hhead
            | exact hhead
        · exact ih (idx + 1) _ _ htail r' hr'

/-- List `getD` of an in-range index is a member. -/
theorem getD_mem_of_lt {α : Type} (l : List α) (i : Nat) (d : α)
    (h : i < l.length) : l.getD i d ∈ l := by
  rw [List.getD_eq_getElem?_getD, List.getElem?_eq_getElem h]
  exact List.getElem_mem h

theorem moveRaftsStep_inv (w : World) (j : List Position) (acc : RaftMoveAcc)
    (raft : RaftState)
    (hrob : ∀ r ∈ acc.robots, isInsideWorld w r.x r.y = true)
    (hacc : ∀ rf ∈ acc.rafts, raftInv w rf) (hraft : raftInv w raft) :
    (∀ r ∈ (moveRaftsStep j acc raft).robots, isInsideWorld w r.x r.y = true) ∧
    (∀ rf ∈ (moveRaftsStep j acc raft).rafts, raftInv w rf) := by
  have happend : ∀ rf ∈ acc.rafts ++ [raft], raftInv w rf := by
    intro rf hrf
    rcases List.mem_append.mp hrf with h | h
    · exact hacc rf h
    · rw [List.mem_singleton.mp h]; exact hraft
  simp only [moveRaftsStep]
  split
  · exact ⟨hrob, happend⟩
  · rename_i hlen2
    have hpos : 0 < raft.route.length := by
      simp only [not_lt] at hlen2; omega
    split
    · split
      · exact ⟨hrob, happend⟩
      · have hdest : (raft.route.getD ((raft.dockIndex + 1) % raft.route.length)
            { x := 0, y := 0 }) ∈ raft.route :=
          getD_mem_of_lt raft.route _ _ (Nat.mod_lt _ hpos)
        have hdin := hraft.1 _ hdest
        constructor
        · intro r' hr'
          rcases List.mem_map.mp hr' with ⟨r, hr, hmapped⟩
          rw [← hmapped]
          split
          · exact hdin
          · exact hrob r hr
        · intro rf hrf
          rcases List.mem_append.mp hrf with h | h
          · exact hacc rf h
          · rw [List.mem_singleton.mp h]
            exact ⟨hraft.1, Nat.mod_lt _ hpos,
              fun ri hri => by
                injection hri with hri; rw [← hri]; exact hraft.2.1⟩
    · split
      · rename_i ri hsome
        split
        · split
          · exact ⟨hrob, happend⟩
          · refine ⟨hrob, ?_⟩
            intro rf hrf
            rcases List.mem_append.mp hrf with h | h
            · exact hacc rf h
            · rw [List.mem_singleton.mp h]
              exact ⟨hraft.1, hraft.2.2 ri hsome,
                fun ri' hri' => by simp at hri'⟩
        · exact ⟨hrob, happend⟩
      · exact ⟨hrob, happend⟩

theorem moveRafts_inside (s : SimulationState) (robots : List RobotState)
    (hrob : ∀ r ∈ robots, isInsideWorld s.world r.x r.y = true)
    (hraft : ∀ rf ∈ s.raftStates, raftInv s.world rf) :
    (∀ r ∈ (moveRafts s robots).robots, isInsideWorld s.world r.x r.y = true) ∧
    (∀ rf ∈ (moveRafts s robots).raftStates, raftInv s.world rf) := by
  unfold moveRafts
  split
  · exact ⟨hrob, fun rf hrf => hraft rf hrf⟩
  · have h : ∀ (rafts : List RaftState) (acc : RaftMoveAcc),
        (∀ r ∈ acc.robots, isInsideWorld s.world r.x r.y = true) →
        (∀ rf ∈ acc.rafts, raftInv s.world rf) →
        (∀ rf ∈ rafts, raftInv s.world rf) →
        (∀ r ∈ (rafts.foldl (moveRaftsStep s.jettyPositions) acc).robots,
          isInsideWorld s.world r.x r.y = true) ∧
        (∀ rf ∈ (rafts.foldl (moveRaftsStep s.jettyPositions) acc).rafts,
          raftInv s.world rf) := by
      intro rafts
      induction rafts with
      | nil => intro acc h1 h2 _; exact ⟨h1, h2⟩
      | cons raft rest ih =>
          intro acc h1 h2 h3
          rw [List.foldl_cons]
          have hstep := moveRaftsStep_inv s.world s.jettyPositions acc raft h1 h2
            (h3 raft (List.mem_cons_self raft rest))
          exact ih _ hstep.1 hstep.2
            fun rf hrf => h3 rf (List.mem_cons_of_mem raft hrf)
    exact h s.raftStates _ hrob (by intro rf hrf; simp at hrf) hraft

theorem moveRafts_world_dims (s : SimulationState) (robots : List RobotState) :
    (moveRafts s robots).world.width = s.world.width ∧
    (moveRafts s robots).world.height = s.world.height := by
  unfold moveRafts
  split <;> exact ⟨rfl, rfl⟩

theorem isInsideWorld_dims {w w' : World} (h1 : w'.width = w.width)
    (h2 : w'.height = w.height) (x y : Int) :
    isInsideWorld w' x y = isInsideWorld w x y := by
  simp only [isInsideWorld, h1, h2]

/-- One simulation step preserves `InBoundsState`. -/
theorem stepSimulation_inBounds (s : SimulationState)
    (a : List (Option RobotAction)) (h : InBoundsState s) :
    InBoundsState (stepSimulation s a) := by
  by_cases hs : s.status = .running
  · rcases h with ⟨hrob, hspawn, hraft⟩
    have hspawned : ∀ r ∈ (stepSpawned s).robots, isInsideWorld s.world r.x r.y = true := by
      rcases spawnNextRobot_robots s (buildOccupiedPositions s.robots) with hh | hh <;>
        rw [show (stepSpawned s).robots = (spawnNextRobot s
          (buildOccupiedPositions s.robots)).robots from rfl, hh]
      · exact hrob
      · intro r hr
        rcases List.mem_append.mp hr with h | h
        · exact hrob r h
        · rw [List.mem_singleton.mp h]
          exact hspawn
    have hres : ∀ r ∈ (stepResolved s a).1, isInsideWorld s.world r.x r.y = true :=
      resolveRobotActions_inside s.world s.exits _ a (stepSpawned s).robots 0 _
        s.globalSignal hspawned
    have hmr : (∀ r ∈ (stepRaft s a).robots, isInsideWorld s.world r.x r.y = true) ∧
        (∀ rf ∈ (stepRaft s a).raftStates, raftInv s.world rf) :=
      moveRafts_inside s (stepResolved s a).1 hres hraft
    have hdims : (stepRaft s a).world.width = s.world.width ∧
        (stepRaft s a).world.height = s.world.height :=
      moveRafts_world_dims s (stepResolved s a).1
    have hfinal : ∀ r ∈ stepFinalRobots s a, isInsideWorld s.world r.x r.y = true := by
      intro r' hr'
      rcases List.mem_map.mp hr' with ⟨r, hr, hmapped⟩
      rw [← hmapped]
      rcases applyExitStatus_pos (stepRaft s a).world s.exits r with ⟨hx, hy⟩
      rw [hx, hy]
      exact hmr.1 r hr
    have hrun : stepSimulation s a = stepSimulationRun s a := by
      simp [stepSimulation, hs]
    rw [hrun]
    refine ⟨?_, ?_, ?_⟩
    · show ∀ r ∈ stepFinalRobots s a,
        isInsideWorld (stepRaft s a).world r.x r.y = true
      intro r hr
      rw [isInsideWorld_dims hdims.1 hdims.2]
      exact hfinal r hr
    · show isInsideWorld (stepRaft s a).world s.spawner.x s.spawner.y = true
      rw [isInsideWorld_dims hdims.1 hdims.2]
      exact hspawn
    · show ∀ rf ∈ (stepRaft s a).raftStates, raftInv (stepRaft s a).world rf
      intro rf hrf
      have hinv := hmr.2 rf hrf
      exact ⟨fun p hp => by
          rw [isInsideWorld_dims hdims.1 hdims.2]; exact hinv.1 p hp,
        hinv.2.1, hinv.2.2⟩
  · simp only [stepSimulation, hs, ne_eq, not_false_eq_true, if_true]
    exact h

/-- C10: out-of-grid coordinates read as `Wall`, an advance whose destination
is outside the grid never moves the robot, and `stepSimulation` (hence any
sequence of steps) keeps every robot inside the bounds, given the spawn cell
and raft routes are inside them too. -/
theorem outside_is_wall_and_robots_stay_in_bounds :
    (∀ (w : World) (x y : Int), x < 0 ∨ y < 0 ∨ w.width ≤ x ∨ w.height ≤ y →
      getTile w x y = TileType.Wall) ∧
    (∀ (w : World) (r : RobotState),
      isInsideWorld w (getForwardPosition (robotPos r) r.direction).x
        (getForwardPosition (robotPos r) r.direction).y = false →
      (applyAction w r .MOVE_FORWARD).x = r.x ∧
        (applyAction w r .MOVE_FORWARD).y = r.y) ∧
    (∀ (s : SimulationState) (a : List (Option RobotAction)),
      InBoundsState s → InBoundsState (stepSimulation s a)) ∧
    (∀ (s : SimulationState) (l : List (List (Option RobotAction))),
      InBoundsState s → InBoundsState (l.foldl stepSimulation s)) := by
  refine ⟨getTile_outside, ?_, stepSimulation_inBounds, ?_⟩
  · intro w r hout
    apply applyAction_blocked_pos
    have : getTile w (getForwardPosition (robotPos r) r.direction).x
        (getForwardPosition (robotPos r) r.direction).y = TileType.Wall := by
      simp [getTile, hout]
    simp [isWall, this]
  · intro s l
    induction l generalizing s with
    | nil => intro h; exact h
    | cons a rest ih =>
        intro h
        rw [List.foldl_cons]
        exact ih (stepSimulation s a) (stepSimulation_inBounds s a h)

/-- C10 witness: the corridor state is in bounds and remains so after a step;
an out-of-grid read is a wall; a westward advance out of the grid is
blocked. -/
theorem outside_is_wall_and_robots_stay_in_bounds_witness :
    getTile corridorWorld (-1) 0 = TileType.Wall ∧
    ((applyAction corridorWorld (createRobotState 0 0 3) .MOVE_FORWARD).x = 0 ∧
      (applyAction corridorWorld (createRobotState 0 0 3) .MOVE_FORWARD).y = 0) ∧
    InBoundsState (stepSimulation corridorState
      [some .MOVE_FORWARD, some .MOVE_FORWARD]) :=
  ⟨outside_is_wall_and_robots_stay_in_bounds.1 corridorWorld (-1) 0
      (Or.inl (by decide)),
   outside_is_wall_and_robots_stay_in_bounds.2.1 corridorWorld
      (createRobotState 0 0 3) (by decide),
   outside_is_wall_and_robots_stay_in_bounds.2.2.1 corridorState
      [some .MOVE_FORWARD, some .MOVE_FORWARD]
      ⟨by decide, by decide, by intro rf hrf; simp [corridorState] at hrf⟩⟩

/-- Only an action yield increments the VM step counter; every other
`stepVm` outcome leaves it unchanged. -/
theorem stepVm_steps (fuel : Nat) (st : VmState) (ctx : VmContext)
    (res : VmStepResult) (h : stepVm fuel st ctx = some res) :
    res.state.steps = st.steps + (if res.action.isSome then 1 else 0) := by
  unfold stepVm at h
  split at h
  · injection h with h; rw [← h]; simp
  · split at h
    · injection h with h; rw [← h]; simp
    · cases hloop : vmRunLoop ctx fuel st.stack with
      | none => rw [hloop] at h; exact absurd h (by simp)
      | some out =>
          rw [hloop] at h
          match out with
          | none => injection h with h; rw [← h]; simp
          | some (s', n, a) => injection h with h; rw [← h]; simp

/-- When `stepVm` reports `step_limit` starting from a running state whose
counter never exceeded the budget, the counter sits exactly at `maxSteps`
(and the reporting call did not move it). -/
theorem stepVm_step_limit (fuel : Nat) (st : VmState) (ctx : VmContext)
    (res : VmStepResult) (h : stepVm fuel st ctx = some res)
    (hrun : st.status = .running) (hle : (st.steps : Int) ≤ st.maxSteps)
    (hlim : res.state.status = .step_limit) :
    (res.state.steps : Int) = st.maxSteps ∧ res.state.steps = st.steps := by
  unfold stepVm at h
  rw [if_neg (by simp [hrun])] at h
  split at h
  · rename_i hge
    injection h with h
    rw [← h]
    exact ⟨le_antisymm hle hge, rfl⟩
  · rename_i hlt
    cases hloop : vmRunLoop ctx fuel st.stack with
    | none => rw [hloop] at h; exact absurd h (by simp)
    | some out =>
        rw [hloop] at h
        match out with
        | none =>
            injection h with h
            rw [← h] at hlim
            simp at hlim
        | some (s', n, a) =>
            injection h with h
            rw [← h] at hlim
            simp [hrun] at hlim

theorem vmRunLoop_yield (ctx : VmContext) (fuel : Nat) (st s' : List Frame)
    (n : AstNode) (a : RobotAction)
    (h : vmLoopStep ctx st = .yieldAction s' n a) :
    vmRunLoop ctx fuel st = some (some (s', n, a)) := by
  unfold vmRunLoop
  rw [h]

theorem vmRunLoop_continue (ctx : VmContext) (fuel : Nat) (st s' : List Frame)
    (h : vmLoopStep ctx st = .continueLoop s') :
    vmRunLoop ctx (fuel + 1) st = vmRunLoop ctx fuel s' := by
  conv_lhs => rw [vmRunLoop]
  rw [h]

theorem vmRunLoop_finished (ctx : VmContext) (fuel : Nat) (st : List Frame)
    (h : vmLoopStep ctx st = .finished) :
    vmRunLoop ctx fuel st = some none := by
  unfold vmRunLoop
  rw [h]

theorem stepVm_of_yield (fuel : Nat) (st : VmState) (ctx : VmContext)
    (s' : List Frame) (n : AstNode) (a : RobotAction)
    (hrun : st.status = .running) (hlt : (st.steps : Int) < st.maxSteps)
    (h : vmRunLoop ctx fuel st.stack = some (some (s', n, a))) :
    stepVm fuel st ctx = some
      ⟨{ st with stack := s', steps := st.steps + 1, currentNode := some n },
        some a⟩ := by
  unfold stepVm
  rw [if_neg (by simp [hrun]), if_neg (by omega), h]

theorem stepVm_of_done (fuel : Nat) (st : VmState) (ctx : VmContext)
    (hrun : st.status = .running) (hlt : (st.steps : Int) < st.maxSteps)
    (h : vmRunLoop ctx fuel st.stack = some none) :
    stepVm fuel st ctx = some
      ⟨{ st with stack := [], status := .done, currentNode := none },
        none⟩ := by
  unfold stepVm
  rw [if_neg (by simp [hrun]), if_neg (by omega), h]

theorem stepVm_of_limit (fuel : Nat) (st : VmState) (ctx : VmContext)
    (hrun : st.status = .running) (hge : (st.steps : Int) ≥ st.maxSteps) :
    stepVm fuel st ctx = some
      ⟨{ st with status := .step_limit, currentNode := none }, none⟩ := by
  unfold stepVm
  rw [if_neg (by simp [hrun]), if_pos hge]

/-- A repeat-until frame whose cursor sits on an in-range action leaf fetches
that leaf, provided the pre-checks fall through (cursor nonzero, or condition
false). -/
theorem vmLoopStep_ru_fetch (ctx : VmContext) (cond : ConditionNode)
    (acts : List (RobotAction × String)) (i : Nat) (rest : List Frame)
    (hfall : i = 0 → evaluateCondition ctx cond = false)
    (hlt : i < acts.length) :
    vmLoopStep ctx (.repeatUntilF cond (actionBody acts) i :: rest) =
      .yieldAction (.repeatUntilF cond (actionBody acts) (i + 1) :: rest)
        (.action (acts.get ⟨i, hlt⟩).1 (acts.get ⟨i, hlt⟩).2)
        (acts.get ⟨i, hlt⟩).1 := by
  have hlen : (actionBody acts).length = acts.length := List.length_map acts _
  have hpre : ¬ ((decide (i = 0) && evaluateCondition ctx cond) = true) := by
    by_cases hi : i = 0
    · simp [hi, hfall hi]
    · simp [hi]
  have hget : (actionBody acts).get? i =
      some (.action (acts.get ⟨i, hlt⟩).1 (acts.get ⟨i, hlt⟩).2) := by
    rw [actionBody, List.get?_eq_getElem?, List.getElem?_map,
      List.getElem?_eq_getElem hlt]
    rfl
  simp only [vmLoopStep, frameBody, frameIndex, frameWithIndex]
  rw [if_neg hpre, if_neg (by rw [hlen]; omega)]
  simp only [if_neg (show ¬ i ≥ (actionBody acts).length by rw [hlen]; omega),
    hget]

/-- A repeat-until frame whose cursor has run off the body resets the cursor
and loops when the condition is (still) false. -/
theorem vmLoopStep_ru_wrap (ctx : VmContext) (cond : ConditionNode)
    (body : ProgramNode) (i : Nat) (rest : List Frame)
    (hcond : evaluateCondition ctx cond = false) (hge : i ≥ body.length) :
    vmLoopStep ctx (.repeatUntilF cond body i :: rest) =
      .continueLoop (.repeatUntilF cond body 0 :: rest) := by
  simp only [vmLoopStep, frameBody, frameIndex, frameWithIndex]
  rw [if_neg (by simp [hcond]), if_pos hge, hcond]
  rfl

/-- A repeat frame with rounds left and the cursor on an in-range action leaf
fetches that leaf. -/
theorem vmLoopStep_rep_fetch (ctx : VmContext)
    (acts : List (RobotAction × String)) (i : Nat) (rem : Int)
    (rest : List Frame) (hrem : 0 < rem) (hlt : i < acts.length) :
    vmLoopStep ctx (.repeatF (actionBody acts) i rem :: rest) =
      .yieldAction (.repeatF (actionBody acts) (i + 1) rem :: rest)
        (.action (acts.get ⟨i, hlt⟩).1 (acts.get ⟨i, hlt⟩).2)
        (acts.get ⟨i, hlt⟩).1 := by
  have hlen : (actionBody acts).length = acts.length := List.length_map acts _
  have hget : (actionBody acts).get? i =
      some (.action (acts.get ⟨i, hlt⟩).1 (acts.get ⟨i, hlt⟩).2) := by
    rw [actionBody, List.get?_eq_getElem?, List.getElem?_map,
      List.getElem?_eq_getElem hlt]
    rfl
  simp only [vmLoopStep, frameBody, frameIndex, frameWithIndex]
  rw [if_neg (by omega), if_neg (by rw [hlen]; omega)]
  simp only [if_neg (show ¬ i ≥ (actionBody acts).length by rw [hlen]; omega),
    hget]

/-- A repeat frame whose cursor ran off the body starts the next round when
more than one round is left. -/
theorem vmLoopStep_rep_wrap (ctx : VmContext) (body : ProgramNode) (i : Nat)
    (rem : Int) (rest : List Frame) (hrem : 1 < rem) (hge : i ≥ body.length) :
    vmLoopStep ctx (.repeatF body i rem :: rest) =
      .continueLoop (.repeatF body 0 (rem - 1) :: rest) := by
  simp only [vmLoopStep, frameBody, frameIndex, frameWithIndex]
  rw [if_neg (by omega), if_pos hge, if_neg (by omega)]

/-- A repeat frame whose cursor ran off the body pops on its last round. -/
theorem vmLoopStep_rep_pop (ctx : VmContext) (body : ProgramNode) (i : Nat)
    (rem : Int) (rest : List Frame) (hrem : 0 < rem) (hrem1 : rem ≤ 1)
    (hge : i ≥ body.length) :
    vmLoopStep ctx (.repeatF body i rem :: rest) = .continueLoop rest := by
  simp only [vmLoopStep, frameBody, frameIndex, frameWithIndex]
  rw [if_neg (by omega), if_pos hge, if_pos (by omega)]

/-- A sequence frame whose cursor ran off its steps pops. -/
theorem vmLoopStep_seq_pop (ctx : VmContext) (node : ProgramNode) (i : Nat)
    (rest : List Frame) (hge : i ≥ node.length) :
    vmLoopStep ctx (.sequence node i :: rest) = .continueLoop rest := by
  simp only [vmLoopStep, frameBody, frameIndex, frameWithIndex]
  rw [if_pos hge]

theorem vmLoopStep_nil (ctx : VmContext) : vmLoopStep ctx [] = .finished := rfl

/-- One `stepVm` call in the periodic regime of `[RepeatUntil cond acts]`
with the condition false: it always emits one body action and returns to the
same stack shape with the step counter bumped. -/
theorem ruLoopState_step (ctx : VmContext) (cond : ConditionNode)
    (acts : List (RobotAction × String)) (bid : String) (m : Int) (k i : Nat)
    (cn : Option AstNode) (hcond : evaluateCondition ctx cond = false)
    (h1 : 1 ≤ i) (hiL : i ≤ acts.length) (hL : 0 < acts.length)
    (hk : (k : Int) < m) :
    ∃ i' cn' a, 1 ≤ i' ∧ i' ≤ acts.length ∧
      stepVm 4 (ruLoopState cond (actionBody acts) bid m k i cn) ctx =
        some ⟨ruLoopState cond (actionBody acts) bid m (k + 1) i' cn',
          some a⟩ := by
  by_cases hcase : i < acts.length
  · refine ⟨i + 1,
      some (.action (acts.get ⟨i, hcase⟩).1 (acts.get ⟨i, hcase⟩).2),
      (acts.get ⟨i, hcase⟩).1, by omega, by omega, ?_⟩
    have hy := vmLoopStep_ru_fetch ctx cond acts i
      [.sequence [.repeatUntil cond (actionBody acts) bid] 1]
      (fun _ => hcond) hcase
    have hrl := vmRunLoop_yield ctx 4 _ _ _ _ hy
    exact stepVm_of_yield 4 _ ctx _ _ _ rfl hk hrl
  · have hieq : i = acts.length := by omega
    subst hieq
    refine ⟨1, some (.action (acts.get ⟨0, hL⟩).1 (acts.get ⟨0, hL⟩).2),
      (acts.get ⟨0, hL⟩).1, le_refl 1, hL, ?_⟩
    have hw := vmLoopStep_ru_wrap ctx cond (actionBody acts) acts.length
      [.sequence [.repeatUntil cond (actionBody acts) bid] 1] hcond
      (by rw [actionBody, List.length_map])
    have hy := vmLoopStep_ru_fetch ctx cond acts 0
      [.sequence [.repeatUntil cond (actionBody acts) bid] 1]
      (fun _ => hcond) hL
    have hrl : vmRunLoop ctx 4
        (ruLoopState cond (actionBody acts) bid m k acts.length cn).stack =
        some (some (Frame.repeatUntilF cond (actionBody acts) 1 ::
          [.sequence [.repeatUntil cond (actionBody acts) bid] 1],
          .action (acts.get ⟨0, hL⟩).1 (acts.get ⟨0, hL⟩).2,
          (acts.get ⟨0, hL⟩).1)) := by
      show vmRunLoop ctx 4 (Frame.repeatUntilF cond (actionBody acts)
        acts.length :: [.sequence [.repeatUntil cond (actionBody acts) bid] 1]) = _
      rw [vmRunLoop_continue ctx 3 _ _ hw, vmRunLoop_yield ctx 3 _ _ _ _ hy]
    exact stepVm_of_yield 4 _ ctx _ _ _ rfl hk hrl

/-- Driving the periodic repeat-until regime to the step limit: from `k`
executed actions with `k + j = maxSteps`, after `j` further action calls and
one more call the VM reports `step_limit` with exactly `maxSteps` actions
executed. -/
theorem ruDrive (ctx : VmContext) (cond : ConditionNode)
    (acts : List (RobotAction × String)) (bid : String)
    (hcond : evaluateCondition ctx cond = false) (hL : 0 < acts.length)
    (m : Nat) :
    ∀ (j k i : Nat) (cn : Option AstNode), k + j = m → 1 ≤ i →
      i ≤ acts.length →
      ∃ final, driveVm 4 ctx (j + 1)
          (ruLoopState cond (actionBody acts) bid (m : Int) k i cn) =
          some final ∧ final.status = .step_limit ∧ final.steps = m := by
  intro j
  induction j with
  | zero =>
      intro k i cn hkj h1 hiL
      have hk : k = m := by omega
      have hstep := stepVm_of_limit 4
        (ruLoopState cond (actionBody acts) bid (m : Int) k i cn) ctx rfl
        (by show ((m : Nat) : Int) ≤ ((k : Nat) : Int); omega)
      refine ⟨{ ruLoopState cond (actionBody acts) bid (m : Int) k i cn with
        status := .step_limit, currentNode := none }, ?_, rfl, hk⟩
      simp only [driveVm, hstep]
  | succ j ih =>
      intro k i cn hkj h1 hiL
      have hklt : k < m := by omega
      obtain ⟨i', cn', a, h1', hiL', hstep⟩ :=
        ruLoopState_step ctx cond acts bid (m : Int) k i cn hcond h1 hiL hL
          (by exact_mod_cast hklt)
      obtain ⟨final, hdrive, hst, hsteps⟩ := ih (k + 1) i' cn' (by omega) h1' hiL'
      refine ⟨final, ?_, hst, hsteps⟩
      show driveVm 4 ctx (j + 1 + 1) _ = some final
      simp only [driveVm, hstep]
      exact hdrive

/-- C3 (amended): only Action leaves move the step counter; whenever the VM
reports `step_limit` from a run whose counter respected the budget, exactly
`maxSteps` actions were executed; and a program `[RepeatUntil c body]` whose
condition is never true and whose body is a nonempty straight line of action
leaves reaches `step_limit` after exactly `maxSteps` actions, for every
`maxSteps ≥ 0`. -/
theorem vm_step_limit_exact :
    (∀ (fuel : Nat) (st : VmState) (ctx : VmContext) (res : VmStepResult),
      stepVm fuel st ctx = some res →
      res.state.steps = st.steps + (if res.action.isSome then 1 else 0)) ∧
    (∀ (fuel : Nat) (st : VmState) (ctx : VmContext) (res : VmStepResult),
      stepVm fuel st ctx = some res → st.status = .running →
      (st.steps : Int) ≤ st.maxSteps → res.state.status = .step_limit →
      (res.state.steps : Int) = st.maxSteps) ∧
    (∀ (ctx : VmContext) (cond : ConditionNode)
      (acts : List (RobotAction × String)) (bid : String) (m : Nat),
      evaluateCondition ctx cond = false → acts ≠ [] →
      ∃ final, driveVm 4 ctx (m + 1)
          (createVm [.repeatUntil cond (actionBody acts) bid] (m : Int)) =
          some final ∧ final.status = .step_limit ∧ final.steps = m) := by
  refine ⟨stepVm_steps, fun fuel st ctx res h h1 h2 h3 =>
    (stepVm_step_limit fuel st ctx res h h1 h2 h3).1, ?_⟩
  intro ctx cond acts bid m hcond hne
  have hL : 0 < acts.length := List.length_pos.mpr hne
  cases m with
  | zero =>
      have hstep := stepVm_of_limit 4
        (createVm [.repeatUntil cond (actionBody acts) bid] ((0 : Nat) : Int))
        ctx rfl (by show ((0 : Nat) : Int) ≤ ((0 : Nat) : Int); omega)
      refine ⟨{ createVm [.repeatUntil cond (actionBody acts) bid]
          ((0 : Nat) : Int) with status := .step_limit, currentNode := none },
        ?_, rfl, rfl⟩
      simp only [driveVm, hstep]
  | succ m' =>
      -- first call: enter the repeat-until and emit the first body action
      have hseq : vmLoopStep ctx
          (createVm [.repeatUntil cond (actionBody acts) bid]
            ((m' + 1 : Nat) : Int)).stack =
          .continueLoop (Frame.repeatUntilF cond (actionBody acts) 0 ::
            [.sequence [.repeatUntil cond (actionBody acts) bid] 1]) := rfl
      have hy := vmLoopStep_ru_fetch ctx cond acts 0
        [.sequence [.repeatUntil cond (actionBody acts) bid] 1]
        (fun _ => hcond) hL
      have hrl : vmRunLoop ctx 4
          (createVm [.repeatUntil cond (actionBody acts) bid]
            ((m' + 1 : Nat) : Int)).stack =
          some (some (Frame.repeatUntilF cond (actionBody acts) 1 ::
            [.sequence [.repeatUntil cond (actionBody acts) bid] 1],
            .action (acts.get ⟨0, hL⟩).1 (acts.get ⟨0, hL⟩).2,
            (acts.get ⟨0, hL⟩).1)) := by
        rw [vmRunLoop_continue ctx 3 _ _ hseq, vmRunLoop_yield ctx 3 _ _ _ _ hy]
      have hfirst := stepVm_of_yield 4 _ ctx _ _ _ rfl
        (by show ((0 : Nat) : Int) < ((m' + 1 : Nat) : Int)
            exact_mod_cast Nat.succ_pos m') hrl
      obtain ⟨final, hdrive, hst, hsteps⟩ := ruDrive ctx cond acts bid hcond hL
        (m' + 1) m' 1 1 (some (.action (acts.get ⟨0, hL⟩).1
          (acts.get ⟨0, hL⟩).2)) (by omega) (le_refl 1) hL
      refine ⟨final, ?_, hst, hsteps⟩
      show driveVm 4 ctx (m' + 1 + 1) _ = some final
      simp only [driveVm, hfirst]
      exact hdrive

set_option maxRecDepth 10000 in
/-- C3 counterexample to the claim as stated: with a negative `maxSteps` the
VM reports `step_limit` after `0` executed actions, not `maxSteps`; and on
`RepeatUntil(never-true, empty body)` the structural loop has a fixed point
(one pass returns the identical configuration), so the VM never yields at
all — `stepVm` still spins after 1000 structural passes. -/
theorem vm_step_limit_counterexample :
    ((stepVm 10 (createVm waitLoopProgram (-5)) plainCtx).map fun res =>
      (res.state.status, res.state.steps, res.action.isSome)) =
        some (.step_limit, 0, false) ∧
    (0 : Int) ≠ (-5 : Int) ∧
    vmLoopStep plainCtx [.repeatUntilF neverCond [] 0] =
      .continueLoop [.repeatUntilF neverCond [] 0] ∧
    stepVm 1000 (createVm emptyLoopProgram 3) plainCtx = none :=
  ⟨rfl, by decide, rfl, rfl⟩

/-- C3 witness: the general conjuncts instantiated on the `WAIT`-body
repeat-until program and the instance run with `maxSteps = 5`. -/
theorem vm_step_limit_exact_witness :
    (waitLoopFirst.state.steps =
      (createVm waitLoopProgram 5).steps +
        (if waitLoopFirst.action.isSome then 1 else 0)) ∧
    ((limitFirst.state.steps : Int) = (createVm waitLoopProgram 0).maxSteps) ∧
    (∃ final, driveVm 4 plainCtx 6
        (createVm [.repeatUntil neverCond (actionBody [(.WAIT, "a1")]) "b1"]
          ((5 : Nat) : Int)) = some final ∧
      final.status = .step_limit ∧ final.steps = 5) :=
  ⟨vm_step_limit_exact.1 10 (createVm waitLoopProgram 5) plainCtx
      waitLoopFirst rfl,
   vm_step_limit_exact.2.1 10 (createVm waitLoopProgram 0) plainCtx
      limitFirst rfl rfl (by decide) rfl,
   vm_step_limit_exact.2.2 plainCtx neverCond [(.WAIT, "a1")] "b1" 5 rfl
      (by decide)⟩

/-- The program sequence's cursor on a `Repeat` node with positive count
pushes a fresh repeat frame. -/
theorem vmLoopStep_seq_fetch_repPos (ctx : VmContext) (count : Int)
    (body : ProgramNode) (bid : String) (rest : List Frame)
    (hpos : 0 < count) :
    vmLoopStep ctx (.sequence [.repeatN count body bid] 0 :: rest) =
      .continueLoop (.repeatF body 0 count ::
        .sequence [.repeatN count body bid] 1 :: rest) := by
  simp only [vmLoopStep, frameBody, frameIndex, frameWithIndex,
    List.length_cons, List.length_nil, List.get?]
  rw [if_neg (by omega), if_pos hpos]

/-- The program sequence's cursor on a `Repeat` node with non-positive count
pushes nothing: the node is skipped. -/
theorem vmLoopStep_seq_fetch_repZero (ctx : VmContext) (count : Int)
    (body : ProgramNode) (bid : String) (rest : List Frame)
    (hz : ¬ 0 < count) :
    vmLoopStep ctx (.sequence [.repeatN count body bid] 0 :: rest) =
      .continueLoop (.sequence [.repeatN count body bid] 1 :: rest) := by
  simp only [vmLoopStep, frameBody, frameIndex, frameWithIndex,
    List.length_cons, List.length_nil, List.get?]
  rw [if_neg (by omega), if_neg hz]

/-- Running the current repeat round from cursor `i` to the end of the body
emits exactly the remaining actions of the round and leaves the VM at the
round boundary. -/
theorem repRunInner (ctx : VmContext) (acts : List (RobotAction × String))
    (bid : String) (count m : Int) :
    ∀ (j i k : Nat) (cn : Option AstNode) (calls : Nat) (rem : Nat),
      1 ≤ rem → 1 ≤ i → i + j = acts.length → (k : Int) + j ≤ m →
      ∃ cn', runTraceVm 4 ctx (calls + j)
          (repLoopState count (actionBody acts) bid m k (rem : Int) i cn) =
        (runTraceVm 4 ctx calls
          (repLoopState count (actionBody acts) bid m (k + j) (rem : Int)
            acts.length cn')).map
          fun out => ((acts.map Prod.fst).drop i ++ out.1, out.2) := by
  intro j
  induction j with
  | zero =>
      intro i k cn calls rem hrem h1 hiL hk
      have hieq : i = acts.length := by omega
      subst hieq
      refine ⟨cn, ?_⟩
      simp only [Nat.add_zero]
      rw [show (acts.map Prod.fst).drop acts.length = [] from by
        rw [← List.length_map acts Prod.fst]; exact List.drop_length _]
      cases hr : runTraceVm 4 ctx calls
        (repLoopState count (actionBody acts) bid m k (rem : Int)
          acts.length cn) with
      | none => rfl
      | some out => simp
  | succ j ih =>
      intro i k cn calls rem hrem h1 hiL hk
      have hcase : i < acts.length := by omega
      have hy := vmLoopStep_rep_fetch ctx acts i (rem : Int)
        [.sequence [.repeatN count (actionBody acts) bid] 1]
        (by exact_mod_cast hrem) hcase
      have hstep : stepVm 4
          (repLoopState count (actionBody acts) bid m k (rem : Int) i cn) ctx =
          some ⟨repLoopState count (actionBody acts) bid m (k + 1) (rem : Int)
              (i + 1) (some (.action (acts.get ⟨i, hcase⟩).1
                (acts.get ⟨i, hcase⟩).2)),
            some (acts.get ⟨i, hcase⟩).1⟩ :=
        stepVm_of_yield 4
          (repLoopState count (actionBody acts) bid m k (rem : Int) i cn) ctx _ _ _
          rfl (by show (k : Int) < m; omega) (vmRunLoop_yield ctx 4 _ _ _ _ hy)
      obtain ⟨cn', hih⟩ := ih (i + 1) (k + 1) (some (.action
        (acts.get ⟨i, hcase⟩).1 (acts.get ⟨i, hcase⟩).2)) calls rem hrem
        (by omega) (by omega) (by omega)
      refine ⟨cn', ?_⟩
      show runTraceVm 4 ctx (calls + j + 1) _ = _
      simp only [runTraceVm, hstep]
      rw [hih, Option.map_map]
      have hk1 : k + 1 + j = k + (j + 1) := by omega
      rw [hk1]
      congr 1
      funext out
      simp only [Function.comp_apply]
      have hdrop : (acts.map Prod.fst).drop i =
          (acts.get ⟨i, hcase⟩).1 :: (acts.map Prod.fst).drop (i + 1) := by
        rw [List.drop_eq_getElem_cons (by simpa using hcase)]
        simp [List.getElem_map]
      rw [hdrop]
      simp

/-- From a round boundary with `rem` rounds left (the finished one included),
the VM emits the remaining `rem - 1` full copies of the body and ends
`done`. -/
theorem repRunWrap (ctx : VmContext) (acts : List (RobotAction × String))
    (bid : String) (count m : Int) (hL : 0 < acts.length) :
    ∀ (rem k : Nat) (cn : Option AstNode), 1 ≤ rem →
      (k : Int) + ((rem - 1) * acts.length : Nat) < m →
      ∃ final, runTraceVm 4 ctx ((rem - 1) * acts.length + 1)
          (repLoopState count (actionBody acts) bid m k (rem : Int)
            acts.length cn) =
          some ((List.replicate (rem - 1) (acts.map Prod.fst)).flatten, final) ∧
        final.status = .done := by
  intro rem
  induction rem with
  | zero => intro k cn hrem; omega
  | succ r ih =>
      intro k cn hrem hk
      by_cases hr0 : r = 0
      · subst hr0
        -- last round: one call pops everything and reports done
        have hw := vmLoopStep_rep_pop ctx (actionBody acts) acts.length
          ((1 : Nat) : Int) [.sequence [.repeatN count (actionBody acts) bid] 1]
          (by norm_num) (by norm_num)
          (by rw [actionBody, List.length_map])
        have hp := vmLoopStep_seq_pop ctx [.repeatN count (actionBody acts) bid]
          1 ([] : List Frame) (by simp)
        have hrl : vmRunLoop ctx 4
            (repLoopState count (actionBody acts) bid m k ((1 : Nat) : Int)
              acts.length cn).stack = some none := by
          show vmRunLoop ctx 4 (Frame.repeatF (actionBody acts) acts.length
            ((1 : Nat) : Int) ::
            [.sequence [.repeatN count (actionBody acts) bid] 1]) = some none
          rw [vmRunLoop_continue ctx 3 _ _ hw, vmRunLoop_continue ctx 2 _ _ hp]
          exact vmRunLoop_finished ctx 2 [] (vmLoopStep_nil ctx)
        have hstep := stepVm_of_done 4
          (repLoopState count (actionBody acts) bid m k ((1 : Nat) : Int)
            acts.length cn) ctx rfl
          (by show (k : Int) < m; simp at hk; omega) hrl
        refine ⟨{ (repLoopState count (actionBody acts) bid m k
            ((1 : Nat) : Int) acts.length cn) with
          stack := [], status := .done, currentNode := none }, ?_, rfl⟩
        have hz : (1 - 1) * acts.length = 0 := by simp
        rw [hz]
        simp only [runTraceVm, hstep, List.replicate, List.flatten_nil]
      · -- wrap into the next round, emit its first action, then recurse
        have hrpos : 1 ≤ r := by omega
        have hw := vmLoopStep_rep_wrap ctx (actionBody acts) acts.length
          ((r + 1 : Nat) : Int)
          [.sequence [.repeatN count (actionBody acts) bid] 1]
          (by exact_mod_cast by omega : (1 : Int) < ((r + 1 : Nat) : Int))
          (by rw [actionBody, List.length_map])
        have hy := vmLoopStep_rep_fetch ctx acts 0 (((r + 1 : Nat) : Int) - 1)
          [.sequence [.repeatN count (actionBody acts) bid] 1]
          (by omega) hL
        have hcast : (((r + 1 : Nat) : Int) - 1) = ((r : Nat) : Int) := by omega
        rw [hcast] at hy
        have hrl : vmRunLoop ctx 4
            (repLoopState count (actionBody acts) bid m k ((r + 1 : Nat) : Int)
              acts.length cn).stack =
            some (some (Frame.repeatF (actionBody acts) 1 ((r : Nat) : Int) ::
              [.sequence [.repeatN count (actionBody acts) bid] 1],
              .action (acts.get ⟨0, hL⟩).1 (acts.get ⟨0, hL⟩).2,
              (acts.get ⟨0, hL⟩).1)) := by
          show vmRunLoop ctx 4 (Frame.repeatF (actionBody acts) acts.length
            ((r + 1 : Nat) : Int) ::
            [.sequence [.repeatN count (actionBody acts) bid] 1]) = _
          rw [vmRunLoop_continue ctx 3 _ _ hw, hcast,
            vmRunLoop_yield ctx 3 _ _ _ _ hy]
        have hmul : r * acts.length = (r - 1) * acts.length + acts.length := by
          obtain ⟨r2, hr2⟩ : ∃ r2, r = r2 + 1 := ⟨r - 1, by omega⟩
          subst hr2
          simp [Nat.succ_mul]
        have hLle : acts.length ≤ r * acts.length :=
          Nat.le_mul_of_pos_left acts.length (by omega)
        have hk' : (k : Int) < m := by
          have : (0 : Int) ≤ ((r + 1 - 1) * acts.length : Nat) := by positivity
          omega
        have hstep : stepVm 4
            (repLoopState count (actionBody acts) bid m k ((r + 1 : Nat) : Int)
              acts.length cn) ctx =
            some ⟨repLoopState count (actionBody acts) bid m (k + 1)
                ((r : Nat) : Int) 1 (some (.action (acts.get ⟨0, hL⟩).1
                  (acts.get ⟨0, hL⟩).2)),
              some (acts.get ⟨0, hL⟩).1⟩ :=
          stepVm_of_yield 4 _ ctx _ _ _ rfl hk' hrl
        obtain ⟨cn', hinner⟩ := repRunInner ctx acts bid count m
          (acts.length - 1) 1 (k + 1)
          (some (.action (acts.get ⟨0, hL⟩).1 (acts.get ⟨0, hL⟩).2))
          ((r - 1) * acts.length + 1) r hrpos (le_refl 1) (by omega)
          (by
            have h1 : (r + 1 - 1) * acts.length = r * acts.length := by simp
            rw [h1] at hk
            omega)
        obtain ⟨final, houter, hst⟩ := ih (k + acts.length) cn' hrpos
          (by
            have h1 : (r + 1 - 1) * acts.length = r * acts.length := by simp
            rw [h1, hmul] at hk
            push_cast at hk ⊢
            omega)
        have hcalls : (r + 1 - 1) * acts.length + 1 =
            ((r - 1) * acts.length + 1 + (acts.length - 1)) + 1 := by
          have h1 : (r + 1 - 1) * acts.length = r * acts.length := by simp
          rw [h1, hmul]
          omega
        refine ⟨final, ?_, hst⟩
        rw [hcalls]
        simp only [runTraceVm, hstep]
        have hkplus : k + 1 + (acts.length - 1) = k + acts.length := by omega
        rw [hinner, hkplus, houter]
        simp only [Option.map_some']
        have hrep : (List.replicate (r + 1 - 1) (acts.map Prod.fst)).flatten =
            (acts.map Prod.fst) ++
              (List.replicate (r - 1) (acts.map Prod.fst)).flatten := by
          have h1 : r + 1 - 1 = (r - 1) + 1 := by omega
          rw [h1, List.replicate_succ, List.flatten_cons]
        have hfirst : acts.map Prod.fst =
            (acts.get ⟨0, hL⟩).1 :: (acts.map Prod.fst).drop 1 := by
          cases acts with
          | nil => simp at hL
          | cons p rest => rfl
        rw [hrep, ← List.cons_append, ← hfirst]

/-- C4 (amended): stepping a VM whose program is `[Repeat n body]` with a
nonempty straight-line action body emits the actions of `body` exactly `n`
times and then moves past the node (the VM becomes `done`), provided the step
budget leaves room; and for `n = 0` the node is a no-op for **every** body:
the very first call ends `done` with no action emitted. -/
theorem repeat_runs_body_n_times :
    (∀ (ctx : VmContext) (acts : List (RobotAction × String)) (bid : String)
      (n : Nat) (m : Int), acts ≠ [] → ((n * acts.length : Nat) : Int) < m →
      ∃ final, runTraceVm 4 ctx (n * acts.length + 1)
          (createVm [.repeatN (n : Int) (actionBody acts) bid] m) =
          some ((List.replicate n (acts.map Prod.fst)).flatten, final) ∧
        final.status = .done) ∧
    (∀ (ctx : VmContext) (body : ProgramNode) (bid : String) (m : Int),
      0 < m →
      ∃ final, runTraceVm 4 ctx 1 (createVm [.repeatN 0 body bid] m) =
          some ([], final) ∧ final.status = .done) := by
  constructor
  · intro ctx acts bid n m hne hm
    have hL : 0 < acts.length := List.length_pos.mpr hne
    have hm0 : (0 : Int) < m := by
      have : (0 : Int) ≤ ((n * acts.length : Nat) : Int) := by positivity
      omega
    cases n with
    | zero =>
        have hseq := vmLoopStep_seq_fetch_repZero ctx ((0 : Nat) : Int)
          (actionBody acts) bid [] (by simp)
        have hp := vmLoopStep_seq_pop ctx
          [.repeatN ((0 : Nat) : Int) (actionBody acts) bid] 1 [] (by simp)
        have hrl : vmRunLoop ctx 4
            (createVm [.repeatN ((0 : Nat) : Int) (actionBody acts) bid] m).stack
            = some none := by
          show vmRunLoop ctx 4
            [Frame.sequence [.repeatN ((0 : Nat) : Int) (actionBody acts) bid] 0]
            = some none
          rw [vmRunLoop_continue ctx 3 _ _ hseq,
            vmRunLoop_continue ctx 2 _ _ hp]
          exact vmRunLoop_finished ctx 2 [] (vmLoopStep_nil ctx)
        have hstep := stepVm_of_done 4
          (createVm [.repeatN ((0 : Nat) : Int) (actionBody acts) bid] m) ctx
          rfl hm0 hrl
        refine ⟨{ (createVm [.repeatN ((0 : Nat) : Int) (actionBody acts) bid]
            m) with
          stack := [], status := .done, currentNode := none }, ?_, rfl⟩
        have h1 : (0 : Nat) * acts.length + 1 = 1 := by simp
        rw [h1]
        simp only [runTraceVm, hstep, List.replicate, List.flatten_nil]
    | succ n' =>
        have hseq := vmLoopStep_seq_fetch_repPos ctx ((n' + 1 : Nat) : Int)
          (actionBody acts) bid []
          (by exact_mod_cast Nat.succ_pos n')
        have hy := vmLoopStep_rep_fetch ctx acts 0 ((n' + 1 : Nat) : Int)
          [.sequence [.repeatN ((n' + 1 : Nat) : Int) (actionBody acts) bid] 1]
          (by exact_mod_cast Nat.succ_pos n') hL
        have hrl : vmRunLoop ctx 4
            (createVm [.repeatN ((n' + 1 : Nat) : Int) (actionBody acts) bid]
              m).stack =
            some (some (Frame.repeatF (actionBody acts) 1 ((n' + 1 : Nat) : Int)
              :: [.sequence [.repeatN ((n' + 1 : Nat) : Int) (actionBody acts)
                bid] 1],
              .action (acts.get ⟨0, hL⟩).1 (acts.get ⟨0, hL⟩).2,
              (acts.get ⟨0, hL⟩).1)) := by
          show vmRunLoop ctx 4
            [Frame.sequence [.repeatN ((n' + 1 : Nat) : Int) (actionBody acts)
              bid] 0] = _
          rw [vmRunLoop_continue ctx 3 _ _ hseq,
            vmRunLoop_yield ctx 3 _ _ _ _ hy]
        have hstep : stepVm 4
            (createVm [.repeatN ((n' + 1 : Nat) : Int) (actionBody acts) bid]
              m) ctx =
            some ⟨repLoopState ((n' + 1 : Nat) : Int) (actionBody acts) bid m 1
                ((n' + 1 : Nat) : Int) 1 (some (.action (acts.get ⟨0, hL⟩).1
                  (acts.get ⟨0, hL⟩).2)),
              some (acts.get ⟨0, hL⟩).1⟩ :=
          stepVm_of_yield 4 _ ctx _ _ _ rfl hm0 hrl
        have hmul : (n' + 1) * acts.length = n' * acts.length + acts.length :=
          Nat.succ_mul n' acts.length
        obtain ⟨cn', hinner⟩ := repRunInner ctx acts bid
          ((n' + 1 : Nat) : Int) m (acts.length - 1) 1 1
          (some (.action (acts.get ⟨0, hL⟩).1 (acts.get ⟨0, hL⟩).2))
          (n' * acts.length + 1) (n' + 1) (by omega) (le_refl 1) (by omega)
          (by
            rw [hmul] at hm
            generalize hp : n' * acts.length = p at hm
            push_cast at hm ⊢
            omega)
        obtain ⟨final, houter, hst⟩ := repRunWrap ctx acts bid
          ((n' + 1 : Nat) : Int) m hL (n' + 1) acts.length cn' (by omega)
          (by
            have h1 : (n' + 1 - 1) * acts.length = n' * acts.length := by simp
            rw [h1]
            rw [hmul] at hm
            generalize hp : n' * acts.length = p at hm ⊢
            push_cast at hm ⊢
            omega)
        have h1L : 1 + (acts.length - 1) = acts.length := by omega
        rw [h1L] at hinner
        refine ⟨final, ?_, hst⟩
        have hcalls : (n' + 1) * acts.length + 1 =
            ((n' * acts.length + 1) + (acts.length - 1)) + 1 := by
          rw [hmul]
          generalize n' * acts.length = p
          omega
        rw [hcalls]
        simp only [runTraceVm, hstep]
        rw [hinner]
        have h2 : (n' + 1 - 1) * acts.length = n' * acts.length := by simp
        rw [h2] at houter
        rw [houter]
        simp only [Option.map_some']
        have hrep : (List.replicate (n' + 1) (acts.map Prod.fst)).flatten =
            (acts.map Prod.fst) ++
              (List.replicate n' (acts.map Prod.fst)).flatten := by
          rw [List.replicate_succ, List.flatten_cons]
        have h3 : (n' + 1 - 1) = n' := by omega
        rw [h3] at houter ⊢
        have hfirst : acts.map Prod.fst =
            (acts.get ⟨0, hL⟩).1 :: (acts.map Prod.fst).drop 1 := by
          cases acts with
          | nil => simp at hL
          | cons p rest => rfl
        rw [hrep, ← List.cons_append, ← hfirst]
  · intro ctx body bid m hm
    have hseq := vmLoopStep_seq_fetch_repZero ctx 0 body bid [] (by norm_num)
    have hp := vmLoopStep_seq_pop ctx [.repeatN 0 body bid] 1 [] (by simp)
    have hrl : vmRunLoop ctx 4 (createVm [.repeatN 0 body bid] m).stack =
        some none := by
      show vmRunLoop ctx 4 [Frame.sequence [.repeatN 0 body bid] 0] = some none
      rw [vmRunLoop_continue ctx 3 _ _ hseq, vmRunLoop_continue ctx 2 _ _ hp]
      exact vmRunLoop_finished ctx 2 [] (vmLoopStep_nil ctx)
    have hstep := stepVm_of_done 4 (createVm [.repeatN 0 body bid] m) ctx rfl
      hm hrl
    refine ⟨{ (createVm [.repeatN 0 body bid] m) with
      stack := [], status := .done, currentNode := none }, ?_, rfl⟩
    simp only [runTraceVm, hstep]

set_option maxRecDepth 10000 in
/-- C4 counterexample to the claim as stated: for `n = 1` and the body
`[RepeatUntil(never-true, [])]`, the structural loop reaches a configuration
that is its own successor — the VM never emits anything and never moves past
the `Repeat` node ( `stepVm` still spins after 1000 structural passes). -/
theorem repeat_runs_counterexample :
    vmLoopStep plainCtx
      [.repeatUntilF neverCond [] 0,
        .repeatF [.repeatUntil neverCond [] "b2"] 1 1,
        .sequence repeatStuckProgram 1] =
      .continueLoop
        [.repeatUntilF neverCond [] 0,
          .repeatF [.repeatUntil neverCond [] "b2"] 1 1,
          .sequence repeatStuckProgram 1] ∧
    stepVm 1000 (createVm repeatStuckProgram 50) plainCtx = none :=
  ⟨rfl, rfl⟩

/-- C4 witness: `Repeat(2, [MOVE_FORWARD])` emits the action exactly twice
then is `done`, and `Repeat(0, [WAIT])` is a no-op. -/
theorem repeat_runs_body_n_times_witness :
    (∃ final, runTraceVm 4 plainCtx (2 * [((.MOVE_FORWARD : RobotAction),
        "a1")].length + 1)
        (createVm [.repeatN ((2 : Nat) : Int)
          (actionBody [(.MOVE_FORWARD, "a1")]) "b1"] 10) =
        some ((List.replicate 2 ([((.MOVE_FORWARD : RobotAction),
          "a1")].map Prod.fst)).flatten, final) ∧
      final.status = .done) ∧
    (∃ final, runTraceVm 4 plainCtx 1
        (createVm [.repeatN 0 [.action .WAIT "a2"] "b2"] 5) =
        some ([], final) ∧ final.status = .done) :=
  ⟨repeat_runs_body_n_times.1 plainCtx [(.MOVE_FORWARD, "a1")] "b1" 2 10
      (by decide) (by decide),
   repeat_runs_body_n_times.2 plainCtx [.action .WAIT "a2"] "b2" 5
      (by decide)⟩

/-! ### C5: the per-tick score formula and the peak accumulator -/

theorem ominN_none_right (a : Option Nat) : ominN a none = a := by
  cases a <;> rfl

theorem foldl_min_comm (l : List Nat) : ∀ a b : Nat,
    l.foldl min (min a b) = min a (l.foldl min b) := by
  induction l with
  | nil => intro a b; rfl
  | cons e es ih =>
      intro a b
      rw [List.foldl_cons, List.foldl_cons, min_assoc]
      exact ih a (min b e)

theorem foldl_stepMinN (ds : List Nat) : ∀ acc : Option Nat,
    ds.foldl stepMinN acc = ominN acc ds.min? := by
  induction ds with
  | nil => intro acc; exact (ominN_none_right acc).symm
  | cons d ds ih =>
      intro acc
      rw [List.foldl_cons, ih]
      cases acc with
      | none =>
          cases ds with
          | nil => rfl
          | cons e es =>
              show some (min d (es.foldl min e)) =
                some (es.foldl min (min d e))
              rw [foldl_min_comm]
      | some m =>
          cases ds with
          | nil => rfl
          | cons e es =>
              show some (min (min m d) (es.foldl min e)) =
                some (min m (es.foldl min (min d e)))
              rw [foldl_min_comm]
              generalize es.foldl min e = A
              rw [Option.some.injEq]
              omega

theorem minN_append (l1 l2 : List Nat) :
    (l1 ++ l2).min? = ominN l1.min? l2.min? := by
  cases l1 with
  | nil => simp [ominN]
  | cons a l1' =>
      cases l2 with
      | nil => rw [List.append_nil]; rfl
      | cons b l2' =>
          show some ((l1' ++ b :: l2').foldl min a) =
            some (min (l1'.foldl min a) (l2'.foldl min b))
          rw [List.foldl_append, List.foldl_cons, foldl_min_comm]

theorem ominN_assoc (a b c : Option Nat) :
    ominN (ominN a b) c = ominN a (ominN b c) := by
  cases a <;> cases b <;> cases c <;> simp [ominN, min_assoc]

theorem minDistanceToExit_fold (exits : List Exit) :
    ∀ (robots : List RobotState) (acc : Option Nat),
    robots.foldl
      (fun acc robot =>
        if !robot.alive then acc
        else exits.foldl
          (fun acc2 e =>
            match acc2 with
            | none => some (manhattanDistance e robot)
            | some m => some (min m (manhattanDistance e robot)))
          acc)
      acc =
    ominN acc (((robots.filter fun r => r.alive).flatMap fun r =>
      exits.map fun e => manhattanDistance e r).min?) := by
  intro robots
  induction robots with
  | nil => intro acc; exact (ominN_none_right acc).symm
  | cons robot rest ih =>
      intro acc
      rw [List.foldl_cons]
      cases ha : robot.alive with
      | false =>
          rw [if_pos (by decide), ih]
          have hf : (robot :: rest).filter (fun r => r.alive) =
              rest.filter fun r => r.alive := by
            rw [List.filter_cons, ha]; rfl
          rw [hf]
      | true =>
          rw [if_neg (by decide)]
          have hinner : exits.foldl
              (fun acc2 e =>
                match acc2 with
                | none => some (manhattanDistance e robot)
                | some m => some (min m (manhattanDistance e robot)))
              acc =
              ominN acc ((exits.map fun e => manhattanDistance e robot).min?) := by
            rw [← foldl_stepMinN]
            rw [List.foldl_map]
            rfl
          rw [hinner, ih]
          have hf : (robot :: rest).filter (fun r => r.alive) =
              robot :: rest.filter fun r => r.alive := by
            rw [List.filter_cons, ha]; rfl
          rw [hf, List.flatMap_cons, minN_append, ominN_assoc]

theorem minDistanceToExit_eq (robots : List RobotState) (exits : List Exit) :
    minDistanceToExit robots exits =
      ((robots.filter fun r => r.alive).flatMap fun r =>
        exits.map fun e => manhattanDistance e r).min? :=
  minDistanceToExit_fold exits robots none

theorem computeScore_eq_spec (robots : List RobotState) (exits : List Exit)
    (savedCount : Nat) (events : EventSummary) (status : SimulationStatus) :
    computeScore robots exits savedCount events status =
      specScorePerTick robots exits savedCount events status := by
  simp only [computeScore, specScorePerTick]
  rw [minDistanceToExit_eq]
  by_cases hex : exits.length > 0
  · rw [if_pos hex, if_pos hex]
    cases hm : ((robots.filter fun r => r.alive).flatMap fun r =>
        exits.map fun e => manhattanDistance e r).min? with
    | none => exact (Nat.add_zero _).symm
    | some d =>
        have h100 : ((100 : Int) - (d : Nat)).toNat = 100 - d := by omega
        show _ + (100 - d) = _ + ((100 : Int) - (d : Nat)).toNat
        rw [h100]
  · rw [if_neg hex, if_neg hex]
    omega

theorem pickBest_bestScore (l : List (Nat × List RobotState)) :
    ∀ acc : EvalAcc, (pickBest acc l).bestScore =
      l.foldl (fun b s => optMaxB b s.1) acc.bestScore := by
  induction l with
  | nil => intro acc; rfl
  | cons p rest ih =>
      intro acc
      obtain ⟨s, robots⟩ := p
      obtain ⟨b, br⟩ := acc
      rw [pickBest, ih, List.foldl_cons]
      cases b with
      | none => rfl
      | some m =>
          by_cases hgt : m < s
          · have hc : scoreGtB (some s) (some m) = true := by
              simp [scoreGtB, hgt]
            rw [if_pos hc]
            have hmax : optMaxB (some m) s = some s := by
              simp only [optMaxB, Option.some.injEq]
              omega
            rw [hmax]
          · have hc : scoreGtB (some s) (some m) = false := by
              simp [scoreGtB, hgt]
            rw [if_neg (by rw [hc]; exact Bool.false_ne_true)]
            have hmax : optMaxB (some m) s = some m := by
              simp only [optMaxB, Option.some.injEq]
              omega
            rw [hmax]

theorem evalLoop_ticks (vmFuel : Nat) (compiled : ProgramNode)
    (options : EvalOptions) (sampleEvery : Int) :
    ∀ (fuel : Nat) (sim : SimulationState) (vms : List (String × VmState))
      (events : EventSummary) (acc : EvalAcc) (tickIndex : Nat)
      (frames : List (List TraceLiteFrame)),
    (evalLoop vmFuel compiled options sampleEvery fuel sim vms events acc
        tickIndex frames).map (fun r => (r.score, r.bestRobots)) =
    (evalTicks vmFuel compiled options fuel sim vms events).map
      (fun l => ((pickBest acc l).bestScore, (pickBest acc l).bestRobots)) := by
  intro fuel
  induction fuel with
  | zero =>
      intro sim vms events acc tickIndex frames
      by_cases hst : sim.status = .running
      · simp [evalLoop, evalTicks, hst]
      · simp [evalLoop, evalTicks, hst, evalFinish, pickBest]
  | succ fuel' ih =>
      intro sim vms events acc tickIndex frames
      by_cases hst : sim.status = .running
      · simp only [evalLoop, evalTicks, hst, ne_eq, not_true_eq_false,
          if_false]
        cases hca : collectActions vmFuel compiled options sim
            (isDoorOpen sim.world sim.robots sim.doorUnlocked)
            sim.robots vms [] false with
        | none => rfl
        | some triple =>
            obtain ⟨vms', actions, sawStepLimit⟩ := triple
            rw [ih, Option.map_map]
            congr 1
      · simp [evalLoop, evalTicks, hst, evalFinish, pickBest]

/-- C5 counterexample: on the one-tick hazard level the robot dies on the
hazard cell, `evaluate` reports the per-tick (and hence best) score `0`
because `computeScore`'s distance bonus only ranges over living robots, while
the claim's formula — minimum Manhattan distance from **any** robot to the
nearest exit — yields `99` at that same tick's state (robots, events, saved
count `0`, status lost). -/
theorem score_formula_counterexample :
    ((evaluate 50 50 moveOnceProgram hazardLevel {}).map fun r => r.score) =
      some (some 0) ∧
    ((evaluate 50 50 moveOnceProgram hazardLevel {}).map fun r => r.ticks) =
      some 1 ∧
    ((evaluate 50 50 moveOnceProgram hazardLevel {}).map fun r =>
        claimScorePerTick r.finalRobots [{ x := 2, y := 0 }] 0 r.events
          .lost) = some 99 ∧
    (0 : Nat) ≠ 99 :=
  ⟨rfl, rfl, rfl, by decide⟩

/-- C5 (amended): the per-tick score computed by the evaluator equals
`savedCount*1000 + door 50 + plate 25 + raft 50 + water 10 + won 5000 +`
(when the level has exits, `max(0, 100 - d)` with `d` the minimum Manhattan
distance from a **living** robot to the nearest exit, `0` when no robot is
alive); `evaluate`'s returned `score`/`bestRobots` pair is the replay of the
best-score accumulator over the per-tick (score, snapshot) observations of
the run; and that accumulator's score is the maximum per-tick score ever
observed (`none` acting as `-Infinity`). -/
theorem evaluate_score_is_max_per_tick (robots : List RobotState)
    (exits : List Exit) (savedCount : Nat) (events : EventSummary)
    (status : SimulationStatus) (vmFuel tickFuel : Nat)
    (program : SolverProgram) (level : SolverLevelDefinition)
    (options : EvalOptions) (acc : EvalAcc)
    (l : List (Nat × List RobotState)) :
    computeScore robots exits savedCount events status =
      specScorePerTick robots exits savedCount events status ∧
    (evaluate vmFuel tickFuel program level options).map
        (fun r => (r.score, r.bestRobots)) =
      (evalTicksOf vmFuel tickFuel program level options).map
        (fun ticks => ((pickBest (evalInitAcc level options) ticks).bestScore,
          (pickBest (evalInitAcc level options) ticks).bestRobots)) ∧
    (pickBest acc l).bestScore =
      l.foldl (fun b s => optMaxB b s.1) acc.bestScore :=
  ⟨computeScore_eq_spec robots exits savedCount events status,
   evalLoop_ticks vmFuel (toProgramNode program) options
     (options.sampleEvery.getD 5) tickFuel
     (createSimulationForLevel level options) []
     { doorOpened := false, pressurePlatePressed := false, raftUsed := false
       waterTouched := false, anySaved := false }
     (evalInitAcc level options) 0
     [snapshotFrame (createSimulationForLevel level options).robots],
   pickBest_bestScore l acc⟩

/-! ### C1: solver soundness — score bounds tying solved evaluations to the
best-program bookkeeping -/

theorem stepRun_robots (s : SimulationState) (a : List (Option RobotAction)) :
    (stepSimulationRun s a).robots = stepFinalRobots s a := rfl

theorem stepRun_requiredSaved (s : SimulationState)
    (a : List (Option RobotAction)) :
    (stepSimulationRun s a).requiredSaved = s.requiredSaved := rfl

theorem stepRun_status (s : SimulationState) (a : List (Option RobotAction)) :
    (stepSimulationRun s a).status =
      (if (countSaved (stepFinalRobots s a) : Int) ≥ s.requiredSaved then .won
       else if s.stepCount + 1 ≥ s.maxSteps then .lost
       else if !(stepFinalRobots s a).any (fun r => r.alive && !r.reachedGoal) &&
           !((stepSpawned s).spawnedCount < s.spawner.count) then .lost
       else s.status) := rfl

theorem stepSimulation_of_running (s : SimulationState)
    (a : List (Option RobotAction)) (h : s.status = .running) :
    stepSimulation s a = stepSimulationRun s a := by
  rw [stepSimulation, if_neg (by simp [h])]

theorem stepSimulation_requiredSaved (s : SimulationState)
    (a : List (Option RobotAction)) :
    (stepSimulation s a).requiredSaved = s.requiredSaved := by
  rw [stepSimulation]
  split
  · rfl
  · exact stepRun_requiredSaved s a

theorem stepRun_not_won_saved (s : SimulationState)
    (a : List (Option RobotAction))
    (h : (stepSimulationRun s a).status ≠ .won) :
    (countSaved (stepSimulationRun s a).robots : Int) < s.requiredSaved := by
  rw [stepRun_robots]
  rw [stepRun_status] at h
  by_cases hc : (countSaved (stepFinalRobots s a) : Int) ≥ s.requiredSaved
  · rw [if_pos hc] at h
    exact absurd rfl h
  · omega

theorem stepRun_won_saved (s : SimulationState)
    (a : List (Option RobotAction)) (hrun : s.status = .running)
    (h : (stepSimulationRun s a).status = .won) :
    s.requiredSaved ≤ (countSaved (stepSimulationRun s a).robots : Int) := by
  rw [stepRun_robots]
  rw [stepRun_status] at h
  by_cases hc : (countSaved (stepFinalRobots s a) : Int) ≥ s.requiredSaved
  · exact hc
  · rw [if_neg hc] at h
    split at h
    · exact absurd h (by decide)
    · split at h
      · exact absurd h (by decide)
      · rw [hrun] at h
        exact absurd h (by decide)

theorem createSimulation_running_saved (cfg : SimulationConfig)
    (h : (createSimulation cfg).status = .running) :
    (countSaved (createSimulation cfg).robots : Int) <
      (createSimulation cfg).requiredSaved := by
  simp only [createSimulation] at h ⊢
  by_cases hc : (countSaved (initializeRobots cfg.spawner cfg.world
      cfg.exits).robots : Int) ≥ cfg.requiredSaved
  · rw [if_pos hc] at h
    exact absurd h (by decide)
  · omega

theorem computeScore_not_won_le (robots : List RobotState) (exits : List Exit)
    (saved : Nat) (events : EventSummary) (status : SimulationStatus)
    (h : ¬ status = .won) :
    computeScore robots exits saved events status ≤ saved * 1000 + 235 := by
  simp only [computeScore, if_neg h]
  have hd : (if events.doorOpened = true then (50 : Nat) else 0) ≤ 50 := by
    split <;> omega
  have hp : (if events.pressurePlatePressed = true then (25 : Nat) else 0) ≤
      25 := by
    split <;> omega
  have hr : (if events.raftUsed = true then (50 : Nat) else 0) ≤ 50 := by
    split <;> omega
  have hw : (if events.waterTouched = true then (10 : Nat) else 0) ≤ 10 := by
    split <;> omega
  split
  · split <;> omega
  · omega

theorem computeScore_won_ge (robots : List RobotState) (exits : List Exit)
    (saved : Nat) (events : EventSummary) :
    saved * 1000 + 5000 ≤ computeScore robots exits saved events .won := by
  simp only [computeScore, if_true]
  split
  · split <;> omega
  · omega

theorem accUpdate_solvedAcc {score : Nat} {acc : EvalAcc} {B : Int}
    (rb : List RobotState) (h : B ≤ (score : Int)) :
    ∃ s, (if scoreGtB (some score) acc.bestScore then
        ({ bestScore := some score, bestRobots := rb } : EvalAcc)
      else acc).bestScore = some s ∧ B ≤ (s : Int) := by
  cases hb : acc.bestScore with
  | none => exact ⟨score, by simp [scoreGtB], h⟩
  | some b =>
      by_cases hgt : b < score
      · refine ⟨score, ?_, h⟩
        rw [if_pos (by simp [scoreGtB, hgt])]
      · refine ⟨b, ?_, by omega⟩
        rw [if_neg (by simp [scoreGtB]; omega)]
        exact hb

theorem accUpdate_bound {score : Nat} {acc : EvalAcc} {B : Int}
    (rb : List RobotState) (hs : (score : Int) ≤ B)
    (hacc : ∀ b, acc.bestScore = some b → (b : Int) ≤ B) :
    ∀ b, (if scoreGtB (some score) acc.bestScore then
        ({ bestScore := some score, bestRobots := rb } : EvalAcc)
      else acc).bestScore = some b → (b : Int) ≤ B := by
  intro b hb
  split at hb
  · rw [Option.some.injEq] at hb
    omega
  · exact hacc b hb

/-! ### C1: solver soundness through the search bookkeeping -/

theorem evalLoop_exit {vf : Nat} {c : ProgramNode} {o : EvalOptions}
    {se : Int} {fuel : Nat} {sim : SimulationState}
    {vms : List (String × VmState)} {events : EventSummary} {acc : EvalAcc}
    {ti : Nat} {fr : List (List TraceLiteFrame)}
    (hst : ¬ sim.status = .running) :
    evalLoop vf c o se fuel sim vms events acc ti fr =
      some (evalFinish se sim events acc ti fr) := by
  cases fuel with
  | zero => simp only [evalLoop, if_pos hst]
  | succ f => simp only [evalLoop, if_pos hst]

theorem evalLoop_from_won {vf : Nat} {c : ProgramNode} {o : EvalOptions}
    {se : Int} {fuel : Nat} {sim : SimulationState}
    {vms : List (String × VmState)} {events : EventSummary} {acc : EvalAcc}
    {ti : Nat} {fr : List (List TraceLiteFrame)} {res : EvalResult}
    (heval : evalLoop vf c o se fuel sim vms events acc ti fr = some res)
    (hwon : sim.status = .won) : res.solved = true := by
  rw [evalLoop_exit (by simp [hwon])] at heval
  have h := Option.some.inj heval
  subst h
  simp [evalFinish, hwon]

theorem evalLoop_exit_facts {vf : Nat} {c : ProgramNode} {o : EvalOptions}
    {se : Int} {fuel : Nat} {sim : SimulationState}
    {vms : List (String × VmState)} {events : EventSummary} {acc : EvalAcc}
    {ti : Nat} {fr : List (List TraceLiteFrame)} {res : EvalResult} (R : Int)
    (heval : evalLoop vf c o se fuel sim vms events acc ti fr = some res)
    (hst : ¬ sim.status = .running)
    (hacc3 : sim.status = .won →
      ∃ s, acc.bestScore = some s ∧ R * 1000 + 5000 ≤ (s : Int))
    (hacc4 : res.solved = false →
      ∀ b, acc.bestScore = some b → (b : Int) ≤ R * 1000 - 765) :
    (res.solved = true →
      ∃ s, res.score = some s ∧ R * 1000 + 5000 ≤ (s : Int)) ∧
    (res.solved = false →
      ∀ s, res.score = some s → (s : Int) ≤ R * 1000 - 765) := by
  rw [evalLoop_exit hst] at heval
  have h := Option.some.inj heval
  subst h
  constructor
  · intro hsol
    have hw : sim.status = .won := by simpa [evalFinish] using hsol
    obtain ⟨s, hs, hb⟩ := hacc3 hw
    refine ⟨s, ?_, hb⟩
    simpa [evalFinish] using hs
  · intro hsol s hscore
    have hbs : acc.bestScore = some s := by simpa [evalFinish] using hscore
    exact hacc4 hsol s hbs

theorem won_score_lb (sim2 : SimulationState) (events : EventSummary)
    (R : Int) (hw : sim2.status = .won)
    (hcw : R ≤ (countSaved sim2.robots : Int)) :
    R * 1000 + 5000 ≤ (computeScore sim2.robots sim2.exits
      (savedCountOf sim2) events sim2.status : Int) := by
  rw [hw]
  have h1 := computeScore_won_ge sim2.robots sim2.exits (savedCountOf sim2)
    events
  have h2 : savedCountOf sim2 = countSaved sim2.robots := rfl
  omega

theorem not_won_score_ub (sim2 : SimulationState) (events : EventSummary)
    (R : Int) (hw : ¬ sim2.status = .won)
    (hc : (countSaved sim2.robots : Int) < R) :
    (computeScore sim2.robots sim2.exits (savedCountOf sim2) events
      sim2.status : Int) ≤ R * 1000 - 765 := by
  have h1 := computeScore_not_won_le sim2.robots sim2.exits (savedCountOf sim2)
    events sim2.status hw
  have h2 : savedCountOf sim2 = countSaved sim2.robots := rfl
  omega

theorem step_H3 (sim2 : SimulationState) (events2 : EventSummary)
    (acc : EvalAcc) (R : Int)
    (K4 : sim2.status = .won → R ≤ (countSaved sim2.robots : Int)) :
    sim2.status = .won →
    ∃ s, (if scoreGtB (some (computeScore sim2.robots sim2.exits
          (savedCountOf sim2) events2 sim2.status)) acc.bestScore then
        ({ bestScore := some (computeScore sim2.robots sim2.exits
            (savedCountOf sim2) events2 sim2.status)
           bestRobots := snapshotRobots sim2.robots } : EvalAcc)
      else acc).bestScore = some s ∧ R * 1000 + 5000 ≤ (s : Int) :=
  fun hw => accUpdate_solvedAcc _ (won_score_lb sim2 events2 R hw (K4 hw))

theorem step_H4 (sim2 : SimulationState) (events2 : EventSummary)
    (acc : EvalAcc) (R : Int) (hnw : ¬ sim2.status = .won)
    (K3 : ¬ sim2.status = .won → (countSaved sim2.robots : Int) < R)
    (hacc : ∀ b, acc.bestScore = some b → (b : Int) ≤ R * 1000 - 765) :
    ∀ b, (if scoreGtB (some (computeScore sim2.robots sim2.exits
          (savedCountOf sim2) events2 sim2.status)) acc.bestScore then
        ({ bestScore := some (computeScore sim2.robots sim2.exits
            (savedCountOf sim2) events2 sim2.status)
           bestRobots := snapshotRobots sim2.robots } : EvalAcc)
      else acc).bestScore = some b → (b : Int) ≤ R * 1000 - 765 :=
  accUpdate_bound _ (not_won_score_ub sim2 events2 R hnw (K3 hnw)) hacc

theorem createSimulation_not_won_saved (cfg : SimulationConfig)
    (h : ¬ (createSimulation cfg).status = .won) :
    (countSaved (createSimulation cfg).robots : Int) <
      (createSimulation cfg).requiredSaved := by
  simp only [createSimulation] at h ⊢
  by_cases hc : (countSaved (initializeRobots cfg.spawner cfg.world
      cfg.exits).robots : Int) ≥ cfg.requiredSaved
  · rw [if_pos hc] at h
    exact absurd rfl h
  · omega

theorem evalLoop_score_facts (vf : Nat) (c : ProgramNode) (o : EvalOptions)
    (se : Int) (R : Int) :
    ∀ (fuel : Nat) (sim : SimulationState) (vms : List (String × VmState))
      (events : EventSummary) (acc : EvalAcc) (ti : Nat)
      (fr : List (List TraceLiteFrame)) (res : EvalResult),
    evalLoop vf c o se fuel sim vms events acc ti fr = some res →
    sim.requiredSaved = R →
    (¬ sim.status = .won → (countSaved sim.robots : Int) < R) →
    (sim.status = .won →
      ∃ s, acc.bestScore = some s ∧ R * 1000 + 5000 ≤ (s : Int)) →
    (res.solved = false →
      ∀ b, acc.bestScore = some b → (b : Int) ≤ R * 1000 - 765) →
    (res.solved = true →
      ∃ s, res.score = some s ∧ R * 1000 + 5000 ≤ (s : Int)) ∧
    (res.solved = false →
      ∀ s, res.score = some s → (s : Int) ≤ R * 1000 - 765) := by
  intro fuel
  induction fuel with
  | zero =>
      intro sim vms events acc ti fr res heval hR hq hacc3 hacc4
      by_cases hst : sim.status = .running
      · simp only [evalLoop] at heval
        rw [if_neg (by simp [hst])] at heval
        exact absurd heval (by simp)
      · exact evalLoop_exit_facts R heval hst hacc3 hacc4
  | succ fuel' ih =>
      intro sim vms events acc ti fr res heval hR hq hacc3 hacc4
      by_cases hst : sim.status = .running
      case neg => exact evalLoop_exit_facts R heval hst hacc3 hacc4
      case pos =>
        simp only [evalLoop, hst, ne_eq, not_true_eq_false, if_false] at heval
        cases hca : collectActions vf c o sim
            (isDoorOpen sim.world sim.robots sim.doorUnlocked)
            sim.robots vms [] false with
        | none => rw [hca] at heval; exact absurd heval (by simp)
        | some triple =>
            obtain ⟨vms', actions, saw⟩ := triple
            rw [hca] at heval
            have hstep : ∀ a, stepSimulation sim a = stepSimulationRun sim a :=
              fun a => stepSimulation_of_running sim a hst
            simp only [hstep] at heval
            refine ih _ _ _ _ _ _ _ heval ?_ ?_ ?_ ?_
            · split_ifs <;> exact hR
            · split_ifs <;> intro hw <;>
                first
                  | exact hq hw
                  | exact hq (by rw [hst]; decide)
                  | (rename_i hflip
                     simp only [Bool.and_eq_true, decide_eq_true_eq] at hflip
                     have h := stepRun_not_won_saved sim actions
                       (by rw [hflip.2]; decide)
                     rw [hR] at h
                     exact h)
                  | (have h := stepRun_not_won_saved sim actions hw
                     rw [hR] at h
                     exact h)
            · refine step_H3 _ _ _ R ?_
              split_ifs <;> intro hw <;>
                first
                  | exact hw.elim
                  | (rw [← hR]; exact stepRun_won_saved sim actions hst hw)
                  | (rw [hst] at hw; exact absurd hw (by decide))
            · intro hsol
              refine step_H4 _ _ _ R ?_ ?_ (hacc4 hsol)
              · intro hw
                have ht := evalLoop_from_won heval hw
                rw [ht] at hsol
                exact absurd hsol (by decide)
              · split_ifs <;> intro hw <;>
                  first
                    | exact hq hw
                    | exact hq (by rw [hst]; decide)
                    | (rename_i hflip
                       simp only [Bool.and_eq_true, decide_eq_true_eq] at hflip
                       have h := stepRun_not_won_saved sim actions
                         (by rw [hflip.2]; decide)
                       rw [hR] at h
                       exact h)
                    | (have h := stepRun_not_won_saved sim actions hw
                       rw [hR] at h
                       exact h)

theorem createSimulation_status (cfg : SimulationConfig) :
    (createSimulation cfg).status = .won ∨
    (createSimulation cfg).status = .running := by
  simp only [createSimulation]
  split
  · exact Or.inl rfl
  · exact Or.inr rfl

theorem evaluate_solved_lb (vf tf : Nat) (p : SolverProgram)
    (level : SolverLevelDefinition) (o : EvalOptions) (res : EvalResult)
    (heval : evaluate vf tf p level o = some res) (hsol : res.solved = true)
    (hrun : (createSimulationForLevel level o).status = .running) :
    ∃ s, res.score = some s ∧
      (createSimulationForLevel level o).requiredSaved * 1000 + 5000 ≤
        (s : Int) := by
  refine (evalLoop_score_facts vf (toProgramNode p) o (o.sampleEvery.getD 5)
    ((createSimulationForLevel level o).requiredSaved) tf
    (createSimulationForLevel level o) []
    { doorOpened := false, pressurePlatePressed := false, raftUsed := false
      waterTouched := false, anySaved := false }
    { bestScore := none
      bestRobots := snapshotRobots (createSimulationForLevel level o).robots }
    0 [snapshotFrame (createSimulationForLevel level o).robots] res
    heval rfl ?_ ?_ ?_).1 hsol
  · exact fun h => createSimulation_not_won_saved _ h
  · intro hw
    rw [hrun] at hw
    exact absurd hw (by decide)
  · intro _ b hb
    exact absurd hb (by simp)

theorem evaluate_unsolved_ub (vf tf : Nat) (p : SolverProgram)
    (level : SolverLevelDefinition) (o : EvalOptions) (res : EvalResult)
    (heval : evaluate vf tf p level o = some res) (hsol : res.solved = false) :
    ∀ s, res.score = some s →
      (s : Int) ≤ (createSimulationForLevel level o).requiredSaved * 1000 -
        765 := by
  by_cases hwon : (createSimulationForLevel level o).status = .won
  · have ht := evalLoop_from_won heval hwon
    rw [hsol] at ht
    exact absurd ht (by decide)
  refine (evalLoop_score_facts vf (toProgramNode p) o (o.sampleEvery.getD 5)
    ((createSimulationForLevel level o).requiredSaved) tf
    (createSimulationForLevel level o) []
    { doorOpened := false, pressurePlatePressed := false, raftUsed := false
      waterTouched := false, anySaved := false }
    { bestScore := none
      bestRobots := snapshotRobots (createSimulationForLevel level o).robots }
    0 [snapshotFrame (createSimulationForLevel level o).robots] res
    heval rfl ?_ ?_ ?_).2 hsol
  · exact fun h => createSimulation_not_won_saved _ h
  · exact fun hw => absurd hw hwon
  · intro _ b hb
    exact absurd hb (by simp)

theorem solved_gt_unsolved {R : Int} {sw : Nat} {bs : Option Nat}
    (hsw : R * 1000 + 5000 ≤ (sw : Int))
    (hbs : ∀ b, bs = some b → (b : Int) ≤ R * 1000 - 765) :
    scoreGtB (some sw) bs = true := by
  cases bs with
  | none => rfl
  | some b =>
      have hb := hbs b rfl
      simp only [scoreGtB, decide_eq_true_eq]
      omega

theorem cloneProgram_eq (p : SolverProgram) : cloneProgram p = p := by
  simp [cloneProgram]

theorem shouldContinue_bestEval (env : SearchEnv) (ctx : SearchCtx) :
    (shouldContinue env ctx).2.bestEval = ctx.bestEval := by
  simp only [shouldContinue]
  split <;> rfl

theorem shouldContinue_bestProgram (env : SearchEnv) (ctx : SearchCtx) :
    (shouldContinue env ctx).2.bestProgram = ctx.bestProgram := by
  simp only [shouldContinue]
  split <;> rfl

theorem shouldContinue_solved (env : SearchEnv) (ctx : SearchCtx) :
    (shouldContinue env ctx).2.solved = ctx.solved := by
  simp only [shouldContinue]
  split <;> rfl

theorem SearchInv_shouldContinue (env : SearchEnv) (ctx : SearchCtx)
    (h : SearchInv env ctx) : SearchInv env (shouldContinue env ctx).2 := by
  simp only [shouldContinue]
  split
  · exact h
  · exact h

theorem SearchInv_ite_pa (env : SearchEnv) (c : Prop) [Decidable c]
    (x : SearchCtx) (v : Int) (hx : SearchInv env x) :
    SearchInv env (if c then { x with lastProgressAttempt := v } else x) := by
  split
  · exact hx
  · exact hx

theorem createSimulationForLevel_status (level : SolverLevelDefinition)
    (o : EvalOptions) :
    (createSimulationForLevel level o).status = .won ∨
    (createSimulationForLevel level o).status = .running :=
  createSimulation_status _

theorem evaluateCandidate_inv (env : SearchEnv) (program : SolverProgram)
    (ctx ctx' : SearchCtx) (ev : Option EvalResult)
    (h : evaluateCandidate env program ctx = some (ctx', ev))
    (hinv : SearchInv env ctx) (hsolved : ctx.solved = false) :
    SearchInv env ctx' := by
  simp only [evaluateCandidate] at h
  split at h
  · have hc : ctx' = (shouldContinue env ctx).2 :=
      (congrArg Prod.fst (Option.some.inj h)).symm
    rw [hc]
    exact SearchInv_shouldContinue env ctx hinv
  · rw [shouldContinue_bestEval, shouldContinue_bestProgram,
      shouldContinue_solved] at h
    cases hev : evaluate env.vmFuel env.tickFuel program env.level
        env.evalOptions with
    | none => rw [hev] at h; exact absurd h (by simp)
    | some evaluation =>
        rw [hev] at h
        simp only [Option.some.injEq, Prod.mk.injEq] at h
        obtain ⟨hc, -⟩ := h
        subst hc
        refine SearchInv_ite_pa env _ _ _ ?_
        cases hes : evaluation.solved with
        | true =>
            rw [if_pos rfl]
            cases hbe : ctx.bestEval with
            | none =>
                exact ⟨fun e he => ⟨cloneProgram program, rfl, by
                    rw [cloneProgram_eq,
                      ← Option.some.inj (show some evaluation = some e from he)]
                    exact hev⟩,
                  fun _ => ⟨evaluation, rfl, hes⟩,
                  fun hns => absurd (show true = false from hns) (by decide)⟩
            | some bestE =>
                simp only []
                by_cases hgt : scoreGtB evaluation.score bestE.score = true
                · rw [if_pos hgt]
                  exact ⟨fun e he => ⟨cloneProgram program, rfl, by
                      rw [cloneProgram_eq,
                        ← Option.some.inj (show some evaluation = some e from he)]
                      exact hev⟩,
                    fun _ => ⟨evaluation, rfl, hes⟩,
                    fun hns => absurd (show true = false from hns) (by decide)⟩
                · exfalso
                  obtain ⟨p', hbp', hevp'⟩ := hinv.1 bestE hbe
                  have hbsol : bestE.solved = false := hinv.2.2 hsolved bestE hbe
                  rcases createSimulationForLevel_status env.level
                      env.evalOptions with hwon | hrun
                  · have ht := evalLoop_from_won hevp' hwon
                    rw [hbsol] at ht
                    exact absurd ht (by decide)
                  · obtain ⟨sw, hsw, hswb⟩ := evaluate_solved_lb env.vmFuel
                      env.tickFuel program env.level env.evalOptions evaluation
                      hev hes hrun
                    have hub := evaluate_unsolved_ub env.vmFuel env.tickFuel p'
                      env.level env.evalOptions bestE hevp' hbsol
                    have hcmp : scoreGtB evaluation.score bestE.score = true := by
                      rw [hsw]
                      exact solved_gt_unsolved hswb hub
                    exact absurd hcmp hgt
        | false =>
            rw [if_neg (by decide)]
            cases hbe : ctx.bestEval with
            | none =>
                refine ⟨fun e he => ⟨cloneProgram program, rfl, by
                    rw [cloneProgram_eq,
                      ← Option.some.inj (show some evaluation = some e from he)]
                    exact hev⟩,
                  fun hs => ?_,
                  fun _ e he =>
                    (Option.some.inj (show some evaluation = some e from he)) ▸
                      hes⟩
                have hs' : ctx.solved = true := hs
                rw [hsolved] at hs'
                exact absurd hs' (by decide)
            | some bestE =>
                simp only []
                by_cases hgt : scoreGtB evaluation.score bestE.score = true
                · rw [if_pos hgt]
                  refine ⟨fun e he => ⟨cloneProgram program, rfl, by
                      rw [cloneProgram_eq,
                        ← Option.some.inj (show some evaluation = some e from he)]
                      exact hev⟩,
                    fun hs => ?_,
                    fun _ e he =>
                      (Option.some.inj
                        (show some evaluation = some e from he)) ▸ hes⟩
                  have hs' : ctx.solved = true := hs
                  rw [hsolved] at hs'
                  exact absurd hs' (by decide)
                · rw [if_neg hgt]
                  refine ⟨fun e he => ?_, fun hs => ?_, fun _ e he => ?_⟩
                  · have he' : some bestE = some e := he
                    obtain rfl := Option.some.inj he'
                    exact hinv.1 bestE hbe
                  · have hs' : ctx.solved = true := hs
                    rw [hsolved] at hs'
                    exact absurd hs' (by decide)
                  · have he' : some bestE = some e := he
                    obtain rfl := Option.some.inj he'
                    exact hinv.2.2 hsolved bestE hbe

theorem searchExpansions_inv (env : SearchEnv) :
    ∀ (l : List SolverProgram) (ctx : SearchCtx)
      (layer : List (SolverProgram × EvalResult))
      (out : SearchCtx × List (SolverProgram × EvalResult)),
    searchExpansions env l ctx layer = some out →
    SearchInv env ctx → ctx.solved = false → SearchInv env out.1 := by
  intro l
  induction l with
  | nil =>
      intro ctx layer out h hinv _
      rw [← Option.some.inj h]
      exact hinv
  | cons expansion rest ih =>
      intro ctx layer out h hinv hsolved
      simp only [searchExpansions] at h
      split at h
      · rw [← Option.some.inj h]
        exact hinv
      · split at h
        · rw [← Option.some.inj h]
          exact SearchInv_shouldContinue env ctx hinv
        · cases hec : evaluateCandidate env expansion
              (shouldContinue env ctx).2 with
          | none => rw [hec] at h; exact absurd h (by simp)
          | some pair =>
              obtain ⟨ctx2, evOpt⟩ := pair
              rw [hec] at h
              have hinv2 : SearchInv env ctx2 :=
                evaluateCandidate_inv env expansion (shouldContinue env ctx).2
                  ctx2 evOpt hec (SearchInv_shouldContinue env ctx hinv)
                  (by rw [shouldContinue_solved]; exact hsolved)
              cases evOpt with
              | none =>
                  rw [← Option.some.inj h]
                  exact hinv2
              | some evaluation =>
                  simp only [] at h
                  split at h
                  · rw [← Option.some.inj h]
                    exact hinv2
                  · rename_i hns
                    exact ih ctx2 _ out h hinv2 (by
                      cases hcs : ctx2.solved
                      · rfl
                      · exact absurd hcs hns)

theorem searchCandidates_inv (env : SearchEnv) :
    ∀ (l : List (SolverProgram × EvalResult)) (ctx : SearchCtx)
      (layer : List (SolverProgram × EvalResult))
      (out : SearchCtx × List (SolverProgram × EvalResult)),
    searchCandidates env l ctx layer = some out →
    SearchInv env ctx → SearchInv env out.1 := by
  intro l
  induction l with
  | nil =>
      intro ctx layer out h hinv
      rw [← Option.some.inj h]
      exact hinv
  | cons candidate rest ih =>
      intro ctx layer out h hinv
      simp only [searchCandidates] at h
      split at h
      · rw [← Option.some.inj h]
        exact SearchInv_shouldContinue env ctx hinv
      · rename_i hcond
        have hsf : (shouldContinue env ctx).2.solved = false := by
          simp only [Bool.or_eq_true, not_or, Bool.not_eq_true] at hcond
          exact hcond.2
        cases hse : searchExpansions env
            (expandProgram candidate.1 env.options)
            (shouldContinue env ctx).2 layer with
        | none => rw [hse] at h; exact absurd h (by simp)
        | some pair =>
            obtain ⟨ctx2, layer2⟩ := pair
            rw [hse] at h
            exact ih ctx2 layer2 out h
              (searchExpansions_inv env _ _ _ _ hse
                (SearchInv_shouldContinue env ctx hinv) hsf)

theorem searchDepths_inv (env : SearchEnv) :
    ∀ (n : Nat) (ctx : SearchCtx)
      (frontier : List (SolverProgram × EvalResult)) (out : SearchCtx),
    searchDepths env n ctx frontier = some out →
    SearchInv env ctx → SearchInv env out := by
  intro n
  induction n with
  | zero =>
      intro ctx frontier out h hinv
      rw [← Option.some.inj h]
      exact hinv
  | succ m ih =>
      intro ctx frontier out h hinv
      simp only [searchDepths] at h
      split at h
      · rw [← Option.some.inj h]
        exact SearchInv_shouldContinue env ctx hinv
      · split at h
        · rw [← Option.some.inj h]
          exact SearchInv_shouldContinue env ctx hinv
        · cases hsc : searchCandidates env
              ((sortByScoreDesc frontier).take env.beamWidth.toNat)
              (shouldContinue env ctx).2 [] with
          | none => rw [hsc] at h; exact absurd h (by simp)
          | some pair =>
              obtain ⟨ctx2, nextLayer⟩ := pair
              rw [hsc] at h
              have hinv2 : SearchInv env ctx2 :=
                searchCandidates_inv env _ _ _ _ hsc
                  (SearchInv_shouldContinue env ctx hinv)
              simp only [] at h
              split at h
              · rw [← Option.some.inj h]
                exact hinv2
              · exact ih ctx2 _ out h hinv2

theorem SearchInv_ctx0 (env : SearchEnv) : SearchInv env searchCtx0 :=
  ⟨fun e he => absurd he (by simp [searchCtx0]),
   fun hs => absurd hs (by simp [searchCtx0]),
   fun _ e he => absurd he (by simp [searchCtx0])⟩

theorem runSolverSearch_eq (vf tf : Nat) (timeOk : Nat → Bool)
    (level : SolverLevelDefinition) (options : SolverSearchOptions)
    (evalOptions : EvalOptions) :
    runSolverSearch vf tf timeOk level options evalOptions =
      match evaluateCandidate (searchEnvOf vf tf timeOk level options
        evalOptions) [] searchCtx0 with
      | none => none
      | some (ctx1, initialEval) =>
          match searchDepths
            (searchEnvOf vf tf timeOk level options evalOptions)
            (searchEnvOf vf tf timeOk level options
              evalOptions).maxDepth.toNat ctx1
            (match initialEval with
             | some ev => [(([] : SolverProgram), ev)]
             | none => []) with
          | none => none
          | some ctx2 =>
              some { solved := ctx2.solved
                     state := { bestProgram := ctx2.bestProgram
                                bestEval := ctx2.bestEval
                                attempts := ctx2.attempts
                                startedAt := 0 } } := rfl

/-- C1: if `runSolverSearch` returns a result with `solved = true`, then the
returned `bestProgram` exists and re-running `evaluate` on it against the same
level with the same evaluation options returns exactly the recorded `bestEval`
with `solved = true`, for every level, search-option setting, fuel budget and
time oracle. -/
theorem solver_solved_replay (vmFuel tickFuel : Nat)
    (timeOk : Nat → Bool) (level : SolverLevelDefinition)
    (options : SolverSearchOptions) (evalOptions : EvalOptions)
    (res : SearchResult)
    (h : runSolverSearch vmFuel tickFuel timeOk level options evalOptions =
      some res)
    (hs : res.solved = true) :
    ∃ p e, res.state.bestProgram = some p ∧ res.state.bestEval = some e ∧
      evaluate vmFuel tickFuel p level evalOptions = some e ∧
      e.solved = true := by
  rw [runSolverSearch_eq] at h
  cases hec : evaluateCandidate
      (searchEnvOf vmFuel tickFuel timeOk level options evalOptions) []
      searchCtx0 with
  | none => rw [hec] at h; exact absurd h (by simp)
  | some pair =>
      obtain ⟨ctx1, initialEval⟩ := pair
      rw [hec] at h
      simp only [] at h
      cases initialEval with
      | none =>
          simp only [] at h
          cases hsd : searchDepths
              (searchEnvOf vmFuel tickFuel timeOk level options evalOptions)
              (searchEnvOf vmFuel tickFuel timeOk level options
                evalOptions).maxDepth.toNat ctx1 [] with
          | none => rw [hsd] at h; exact absurd h (by simp)
          | some ctx2 =>
              rw [hsd] at h
              have hres := Option.some.inj h
              have hinv1 : SearchInv
                  (searchEnvOf vmFuel tickFuel timeOk level options
                    evalOptions) ctx1 :=
                evaluateCandidate_inv _ [] searchCtx0 ctx1 none hec
                  (SearchInv_ctx0 _) rfl
              have hinv2 : SearchInv
                  (searchEnvOf vmFuel tickFuel timeOk level options
                    evalOptions) ctx2 :=
                searchDepths_inv _ _ ctx1 _ ctx2 hsd hinv1
              have hsolved2 : ctx2.solved = true := by
                rw [← hres] at hs
                exact hs
              obtain ⟨e, hbe, hesol⟩ := hinv2.2.1 hsolved2
              obtain ⟨p, hbp, hevp⟩ := hinv2.1 e hbe
              refine ⟨p, e, ?_, ?_, hevp, hesol⟩
              · rw [← hres]
                exact hbp
              · rw [← hres]
                exact hbe
      | some ev =>
          simp only [] at h
          cases hsd : searchDepths
              (searchEnvOf vmFuel tickFuel timeOk level options evalOptions)
              (searchEnvOf vmFuel tickFuel timeOk level options
                evalOptions).maxDepth.toNat ctx1
              [(([] : SolverProgram), ev)] with
          | none => rw [hsd] at h; exact absurd h (by simp)
          | some ctx2 =>
              rw [hsd] at h
              have hres := Option.some.inj h
              have hinv1 : SearchInv
                  (searchEnvOf vmFuel tickFuel timeOk level options
                    evalOptions) ctx1 :=
                evaluateCandidate_inv _ [] searchCtx0 ctx1 (some ev) hec
                  (SearchInv_ctx0 _) rfl
              have hinv2 : SearchInv
                  (searchEnvOf vmFuel tickFuel timeOk level options
                    evalOptions) ctx2 :=
                searchDepths_inv _ _ ctx1 _ ctx2 hsd hinv1
              have hsolved2 : ctx2.solved = true := by
                rw [← hres] at hs
                exact hs
              obtain ⟨e, hbe, hesol⟩ := hinv2.2.1 hsolved2
              obtain ⟨p, hbp, hevp⟩ := hinv2.1 e hbe
              refine ⟨p, e, ?_, ?_, hevp, hesol⟩
              · rw [← hres]
                exact hbp
              · rw [← hres]
                exact hbe

set_option maxRecDepth 10000 in
set_option maxHeartbeats 1600000 in
theorem goal_stage1 :
    evaluateCandidate (searchEnvOf 50 50 (fun _ => true) goalLevel
      goalSearchOptions {}) [] searchCtx0 = some (goalCtx1, some goalEval0) :=
  rfl

set_option maxRecDepth 10000 in
set_option maxHeartbeats 1600000 in
theorem goal_stage2 :
    searchDepths (searchEnvOf 50 50 (fun _ => true) goalLevel
        goalSearchOptions {})
      (searchEnvOf 50 50 (fun _ => true) goalLevel goalSearchOptions
        {}).maxDepth.toNat
      goalCtx1 [(([] : SolverProgram), goalEval0)] = some goalCtx2 :=
  rfl

set_option maxRecDepth 10000 in
set_option maxHeartbeats 1600000 in
theorem goal_search :
    runSolverSearch 50 50 (fun _ => true) goalLevel goalSearchOptions {} =
      some goalSearchResultValue := by
  rw [runSolverSearch_eq, goal_stage1]
  simp only []
  rw [goal_stage2]
  rfl

/-- C1 witness: on the one-step goal level the beam search solves with the
single-action program, and replaying that returned program through `evaluate`
independently reports `solved`. -/
theorem solver_solved_replay_witness :
    ∃ p e, goalSearchResultValue.state.bestProgram = some p ∧
      goalSearchResultValue.state.bestEval = some e ∧
      evaluate 50 50 p goalLevel {} = some e ∧ e.solved = true :=
  solver_solved_replay 50 50 (fun _ => true) goalLevel goalSearchOptions {}
    goalSearchResultValue goal_search rfl

end LemBots
